import Mathlib

/-!
# A verification development for the `claude-tap` proxy/trace pipeline

Shallow embedding of the core of the repository:

* `claude_tap/sse.py`   — `SSEReassembler` (byte buffering, SSE line parsing,
  event accumulation into a message snapshot);
* `claude_tap/proxy.py` — `filter_headers`, `proxy_handler`,
  `_handle_streaming`, `_handle_non_streaming`, `_build_record`;
* `claude_tap/trace.py` — `TraceWriter.write` / `_update_stats`;
* `claude_tap/live.py`  — `LiveViewerServer.broadcast` / `_handle_sse`
  (modelled as an interleaving machine over the asyncio suspension points).

Python JSON values are modelled by the inductive type `J`; Python operations
that can raise are modelled by `Except PyErr` results, and `try/except` blocks
by explicit fallbacks that keep the state mutated so far.  `json.loads` and
`bytes.decode` are kept as function parameters (`jl`, `dec`): none of the
verified properties depends on the concrete parser, only on where the code
calls it and on how parse failures are handled.
-/

set_option linter.unusedVariables false

/-- JSON-like values as produced by Python's `json.loads`: `None`, booleans,
integers, strings, lists, and string-keyed insertion-ordered dicts.
(Float literals and non-string dict keys are outside the modelled fragment;
no verified claim depends on them.) -/
inductive J where
  | null : J
  | b : Bool → J
  | i : Int → J
  | s : String → J
  | arr : List J → J
  | obj : List (String × J) → J

/-- The Python exceptions distinguished by the embedded code. -/
inductive PyErr where
  | typeError : PyErr
  | attributeError : PyErr
  | indexError : PyErr
  | keyError : PyErr
  | valueError : PyErr

/-! Character-list implementations of the string operations the embedded code
uses (`startswith`, slicing, `lower`): behaviourally the same as the library
versions, but they reduce inside the kernel, so concrete runs can be checked
by `rfl`/`decide`. -/

/-- `t.startswith(p)`. -/
def strStartsWith (t p : String) : Bool :=
  p.toList.isPrefixOf t.toList

/-- `t[n:]` (by code points). -/
def strDrop (t : String) (n : Nat) : String :=
  String.mk (t.toList.drop n)

/-- `t[:n]` (by code points). -/
def strTake (t : String) (n : Nat) : String :=
  String.mk (t.toList.take n)

/-- `t.lower()` (ASCII fragment). -/
def strToLower (t : String) : String :=
  String.mk (t.toList.map Char.toLower)

/-- `len(t)` (by code points). -/
def strLen (t : String) : Nat :=
  t.toList.length

/-- `"\n".join(lines)`. -/
def strJoinNl : List String -> String
  | [] => ""
  | [l] => l
  | l :: ls => l ++ "\n" ++ strJoinNl ls

/-- First (= only) binding of key `k` in an ordered dict. -/
def lookupJ (fs : List (String × J)) (k : String) : Option J :=
  (fs.find? (fun p => p.1 == k)).map (fun p => p.2)

/-- Python `d[k] = v` on a dict: replace in place if present, else append. -/
def setJ (fs : List (String × J)) (k : String) (v : J) : List (String × J) :=
  if fs.any (fun p => p.1 == k) then
    fs.map (fun p => if p.1 == k then (p.1, v) else p)
  else fs ++ [(k, v)]

/-- Python `del d[k]` on a dict (key known present): drop the binding. -/
def delJ (fs : List (String × J)) (k : String) : List (String × J) :=
  fs.filter (fun p => p.1 != k)

/-- Python `data.get(k, default)` where `data` is known to be a dict. -/
def dget (fs : List (String × J)) (k : String) (d : J) : J :=
  (lookupJ fs k).getD d

/-- `v[k] = w` for a string key `k`: valid only on dicts, else `TypeError`. -/
def pySetKey (v : J) (k : String) (w : J) : Except PyErr J :=
  match v with
  | J.obj fs => Except.ok (J.obj (setJ fs k w))
  | _ => Except.error PyErr.typeError

/-- `v[k] = w` where `v` is already known to be a dict (identity otherwise). -/
def jSetKeyD (v : J) (k : String) (w : J) : J :=
  match v with
  | J.obj fs => J.obj (setJ fs k w)
  | _ => v

/-- Python `v.get(k, default)`: `AttributeError` unless `v` is a dict. -/
def pyGetDefault (v : J) (k : String) (d : J) : Except PyErr J :=
  match v with
  | J.obj fs => Except.ok (dget fs k d)
  | _ => Except.error PyErr.attributeError

/-- Python `v[k]` for a string key: `KeyError` on a dict missing the key,
`TypeError` on anything that is not a dict. -/
def pyGetItem (v : J) (k : String) : Except PyErr J :=
  match v with
  | J.obj fs =>
    match lookupJ fs k with
    | some w => Except.ok w
    | none => Except.error PyErr.keyError
  | _ => Except.error PyErr.typeError

/-- Python `len(v)`: defined on strings, lists and dicts; `TypeError` else. -/
def pyLen : J → Except PyErr Int
  | J.s v => Except.ok (strLen v : Int)
  | J.arr xs => Except.ok xs.length
  | J.obj fs => Except.ok fs.length
  | _ => Except.error PyErr.typeError

/-- Python `needle in v` for a string needle: substring test on strings,
element equality on lists, key test on dicts, `TypeError` else. -/
def pyContains (needle : String) : J → Except PyErr Bool
  | J.s v => Except.ok ((v.toList.tails).any (fun t => needle.toList.isPrefixOf t))
  | J.arr xs => Except.ok (xs.any (fun x => match x with | J.s t => t == needle | _ => false))
  | J.obj fs => Except.ok (fs.any (fun p => p.1 == needle))
  | _ => Except.error PyErr.typeError

/-- A value usable as a Python `int` in comparisons/indexing
(`bool` participates in integer arithmetic). -/
def pyAsInt : J → Option Int
  | J.i n => some n
  | J.b v => some (if v then 1 else 0)
  | _ => none

/-- Python `v[i]` for an integer index: negative indices count from the end,
out-of-range raises `IndexError`.  Integer subscription of a dict raises
`KeyError` in this string-keyed model. -/
def pyIndex (v : J) (i : Int) : Except PyErr J :=
  match v with
  | J.arr xs =>
    let j := if i < 0 then i + xs.length else i
    if j < 0 then Except.error PyErr.indexError
    else
      match xs[j.toNat]? with
      | some x => Except.ok x
      | none => Except.error PyErr.indexError
  | J.s t =>
    let cs := t.toList
    let j := if i < 0 then i + cs.length else i
    if j < 0 then Except.error PyErr.indexError
    else
      match cs[j.toNat]? with
      | some c => Except.ok (J.s (String.mk [c]))
      | none => Except.error PyErr.indexError
  | J.obj _ => Except.error PyErr.keyError
  | _ => Except.error PyErr.typeError

/-- Python list item assignment `xs[i] = v` (negative indices from the end,
out-of-range raises `IndexError`). -/
def pySetIndex (xs : List J) (i : Int) (v : J) : Except PyErr (List J) :=
  let j := if i < 0 then i + xs.length else i
  if j < 0 then Except.error PyErr.indexError
  else if j.toNat < xs.length then Except.ok (xs.set j.toNat v)
  else Except.error PyErr.indexError

/-- Python `+` on the value kinds that support it (`bool` acts as an int). -/
def pyAdd : J → J → Except PyErr J
  | J.s a, J.s b => Except.ok (J.s (a ++ b))
  | J.i a, J.i b => Except.ok (J.i (a + b))
  | J.i a, J.b b => Except.ok (J.i (a + (if b then 1 else 0)))
  | J.b a, J.i b => Except.ok (J.i ((if a then 1 else 0) + b))
  | J.b a, J.b b => Except.ok (J.i ((if a then 1 else 0) + (if b then 1 else 0)))
  | J.arr a, J.arr b => Except.ok (J.arr (a ++ b))
  | _, _ => Except.error PyErr.typeError

/-- Python truthiness of a JSON value. -/
def pyTruthy : J → Bool
  | J.null => false
  | J.b v => v
  | J.i n => n != 0
  | J.s v => !v.toList.isEmpty
  | J.arr xs => !xs.isEmpty
  | J.obj fs => !fs.isEmpty

/-- Python `v == t` against a string literal (cross-type `==` is `False`). -/
def jEqString (v : J) (t : String) : Bool :=
  match v with
  | J.s u => u == t
  | _ => false


/-! ## `SSEReassembler._accumulate` (sse.py lines 46–99)

Each handler below is a line-by-line transcription of one `elif` branch of
`_accumulate`.  The whole branch body runs inside `try: ... except Exception:
pass`, so any raising operation returns the snapshot as mutated so far. -/

/-- `content_block_start` (sse.py 57–66). -/
def accBlockStart (data : List (String × J)) (snap : J) : J :=
  -- block = copy.deepcopy(data.get("content_block", {}))
  let block := dget data "content_block" (J.obj [])
  -- if "content" not in self._snapshot: self._snapshot["content"] = []
  match pyContains "content" snap with
  | Except.error _ => snap
  | Except.ok mem =>
    match (if mem then Except.ok snap else pySetKey snap "content" (J.arr [])) with
    | Except.error _ => snap
    | Except.ok s1 =>
      -- idx = data.get("index", len(self._snapshot["content"]))
      -- (the default argument is evaluated eagerly, before the lookup)
      match pyGetItem s1 "content" with
      | Except.error _ => s1
      | Except.ok content0 =>
        match pyLen content0 with
        | Except.error _ => s1
        | Except.ok len0 =>
          let idxJ := (lookupJ data "index").getD (J.i len0)
          -- while len(self._snapshot["content"]) <= idx:
          --     self._snapshot["content"].append({})
          match pyAsInt idxJ with
          | none => s1        -- `len(...) <= idx` raises on a non-integer index
          | some idx =>
            match content0 with
            | J.arr xs =>
              let xs1 := if (xs.length : Int) ≤ idx
                then xs ++ List.replicate (idx + 1 - xs.length).toNat (J.obj [])
                else xs
              -- the append loop mutates the snapshot's list in place
              let s2 := jSetKeyD s1 "content" (J.arr xs1)
              -- self._snapshot["content"][idx] = block
              match pySetIndex xs1 idx block with
              | Except.error _ => s2
              | Except.ok xs2 => jSetKeyD s2 "content" (J.arr xs2)
            | J.s _ =>
              -- a string has a length but supports neither `.append` nor item
              -- assignment: the first such operation raises, nothing mutated
              s1
            | J.obj _ =>
              -- `len(dict)` is fine; `.append` on a dict raises; a dict item
              -- assignment under an integer key is outside this string-keyed
              -- model (it only arises from a non-standard `message.content`
              -- dict) and is treated as leaving the snapshot unchanged
              s1
            | _ => s1         -- unreachable: `pyLen content0` raised above

/-- One `block[key] = block.get(key, "") + delta.get(dkey, "")` step of a
`content_block_delta` (sse.py 73–78), writing the mutated block back into the
snapshot's content list. -/
def accDeltaAppend (snap content1 : J) (idx : Int) (block : J)
    (dfs : List (String × J)) (key dkey : String) : J :=
  match block with
  | J.obj bfs =>
    match pyAdd ((lookupJ bfs key).getD (J.s "")) ((lookupJ dfs dkey).getD (J.s "")) with
    | Except.error _ => snap
    | Except.ok v =>
      match content1 with
      | J.arr xs =>
        match pySetIndex xs idx (J.obj (setJ bfs key v)) with
        | Except.error _ => snap  -- unreachable: the index was already valid
        | Except.ok xs2 => jSetKeyD snap "content" (J.arr xs2)
      | _ => snap
  | _ => snap                     -- `block.get` on a non-dict raises

/-- `content_block_delta` (sse.py 67–78). -/
def accBlockDelta (data : List (String × J)) (snap : J) : J :=
  -- idx = data.get("index", 0); delta = data.get("delta", {})
  let idxJ := dget data "index" (J.i 0)
  let deltaJ := dget data "delta" (J.obj [])
  -- if idx < len(self._snapshot.get("content", [])):
  match pyGetDefault snap "content" (J.arr []) with
  | Except.error _ => snap
  | Except.ok content0 =>
    match pyLen content0 with
    | Except.error _ => snap
    | Except.ok len0 =>
      match pyAsInt idxJ with
      | none => snap
      | some idx =>
        if idx < len0 then
          -- block = self._snapshot["content"][idx]
          match pyGetItem snap "content" with
          | Except.error _ => snap
          | Except.ok content1 =>
            match pyIndex content1 idx with
            | Except.error _ => snap
            | Except.ok block =>
              match deltaJ with
              | J.obj dfs =>
                let dtype := (lookupJ dfs "type").getD J.null
                if jEqString dtype "text_delta" then
                  accDeltaAppend snap content1 idx block dfs "text" "text"
                else if jEqString dtype "thinking_delta" then
                  accDeltaAppend snap content1 idx block dfs "thinking" "thinking"
                else if jEqString dtype "input_json_delta" then
                  accDeltaAppend snap content1 idx block dfs "_partial_json" "partial_json"
                else snap
              | _ => snap         -- `delta.get("type")` on a non-dict raises
        else snap

/-- `content_block_stop` (sse.py 80–88). -/
def accBlockStop (jl : String → Option J) (data : List (String × J)) (snap : J) : J :=
  let idxJ := dget data "index" (J.i 0)
  match pyGetDefault snap "content" (J.arr []) with
  | Except.error _ => snap
  | Except.ok content0 =>
    match pyLen content0 with
    | Except.error _ => snap
    | Except.ok len0 =>
      match pyAsInt idxJ with
      | none => snap
      | some idx =>
        if idx < len0 then
          match pyGetItem snap "content" with
          | Except.error _ => snap
          | Except.ok content1 =>
            match pyIndex content1 idx with
            | Except.error _ => snap
            | Except.ok block =>
              -- if "_partial_json" in block:
              match pyContains "_partial_json" block with
              | Except.error _ => snap
              | Except.ok false => snap
              | Except.ok true =>
                match block with
                | J.obj bfs =>
                  match lookupJ bfs "_partial_json" with
                  | none => snap  -- unreachable: containment was just checked
                  | some pj =>
                    match pj with
                    | J.s rawPj =>
                      -- try: block["input"] = json.loads(block["_partial_json"])
                      -- except (JSONDecodeError, ValueError): pass
                      let bfs1 := match jl rawPj with
                        | some v => setJ bfs "input" v
                        | none => bfs
                      -- del block["_partial_json"]
                      let bfs2 := delJ bfs1 "_partial_json"
                      match content1 with
                      | J.arr xs =>
                        match pySetIndex xs idx (J.obj bfs2) with
                        | Except.error _ => snap
                        | Except.ok xs2 => jSetKeyD snap "content" (J.arr xs2)
                      | _ => snap
                    | _ => snap   -- json.loads on a non-string raises TypeError,
                                  -- which the inner except does not catch
                | _ => snap       -- containment held but string-key subscription raises
        else snap

/-- `message_delta` (sse.py 89–97). -/
def accMessageDelta (data : List (String × J)) (snap : J) : J :=
  -- delta = data.get("delta", {})
  let deltaJ := dget data "delta" (J.obj [])
  match deltaJ with
  | J.obj dfs =>
    -- for k, v in delta.items(): self._snapshot[k] = v
    match (match snap, dfs with
           | _, [] => Except.ok snap
           | J.obj fs, _ => Except.ok (J.obj (dfs.foldl (fun a (p : String × J) => setJ a p.1 p.2) fs))
           | _, _ => Except.error PyErr.typeError) with
    | Except.error _ => snap      -- the first item assignment raises
    | Except.ok s1 =>
      -- usage = data.get("usage", {})
      let usageJ := dget data "usage" (J.obj [])
      if pyTruthy usageJ then
        -- if "usage" not in self._snapshot: self._snapshot["usage"] = {}
        match pyContains "usage" s1 with
        | Except.error _ => s1
        | Except.ok mem =>
          match (if mem then Except.ok s1 else pySetKey s1 "usage" (J.obj [])) with
          | Except.error _ => s1
          | Except.ok s2 =>
            -- self._snapshot["usage"].update(usage)
            match pyGetItem s2 "usage" with
            | Except.error _ => s2
            | Except.ok uval =>
              match uval, usageJ with
              | J.obj ufs, J.obj gfs =>
                jSetKeyD s2 "usage" (J.obj (gfs.foldl (fun a (p : String × J) => setJ a p.1 p.2) ufs))
              | _, _ => s2
                -- `.update` on a non-dict snapshot value raises; updating from a
                -- non-dict JSON payload raises (a list of pairs would succeed in
                -- CPython but cannot arise from a JSON `usage` field)
      else s1
  | _ => snap                     -- `delta.items()` on a non-dict raises

/-- `SSEReassembler._accumulate` (sse.py 46–99): dispatch on the event type.
`data` that is not a dict returns immediately; handlers run under
`try/except Exception: pass`. -/
def accumulate (jl : String → Option J) (event_type : String) (data : J)
    (snap : Option J) : Option J :=
  match data with
  | J.obj fs =>
    if event_type == "message_start" then
      -- self._snapshot = copy.deepcopy(data.get("message", {}))
      some (dget fs "message" (J.obj []))
    else
      match snap with
      | none => none              -- elif self._snapshot is None: return
      | some s =>
        if event_type == "content_block_start" then some (accBlockStart fs s)
        else if event_type == "content_block_delta" then some (accBlockDelta fs s)
        else if event_type == "content_block_stop" then some (accBlockStop jl fs s)
        else if event_type == "message_delta" then some (accMessageDelta fs s)
        else some s
  | _ => snap

/-! ## `SSEReassembler` line parsing and byte buffering (sse.py lines 9–44)

The parsing state carried across lines (`events`, `_current_event`,
`_current_data_lines`, `_snapshot`) is grouped in `LineState`; the reassembler
couples it with the raw byte buffer `_buf`.  Bytes are `Nat`s; `dec` stands
for `bytes.decode("utf-8", errors="replace")` (total, never raises). -/

/-- Python `str.strip()` whitespace (ASCII fragment). -/
def isPySpace (c : Char) : Bool :=
  c == ' ' || c == '\t' || c == '\n' || c == '\r' || c == '\x0b' || c == '\x0c'

/-- Python `str.strip()`. -/
def pyStrip (st : String) : String :=
  String.mk (((st.toList.dropWhile isPySpace).reverse.dropWhile isPySpace).reverse)

/-- Python `line.rstrip("\r")`. -/
def rstripCR (st : String) : String :=
  String.mk ((st.toList.reverse.dropWhile (fun c => c == '\r')).reverse)

/-- The per-event parsing state of `SSEReassembler` (sse.py 13–18):
`events`, `_current_event`, `_current_data_lines`, `_snapshot`. -/
structure LineState where
  events : List (String × J)
  current_event : Option String
  current_data_lines : List String
  snapshot : Option J

/-- `SSEReassembler._feed_line` (sse.py 26–44). -/
def feed_line (jl : String → Option J) (line : String) (st : LineState) : LineState :=
  let l := rstripCR line
  if strStartsWith l "event:" then
    { st with current_event := some (pyStrip (strDrop l 6)), current_data_lines := [] }
  else if strStartsWith l "data:" then
    { st with current_data_lines := st.current_data_lines ++ [pyStrip (strDrop l 5)] }
  else if l == "" then
    match st.current_event with
    | none => st
    | some ev =>
      -- raw_data = "\n".join(self._current_data_lines)
      -- data = json.loads(raw_data), falling back to the raw string
      let rawData := strJoinNl st.current_data_lines
      let d := match jl rawData with
        | some v => v
        | none => J.s rawData
      { events := st.events ++ [(ev, d)],
        snapshot := accumulate jl ev d st.snapshot,
        current_event := none,
        current_data_lines := [] }
  else st

/-- The full reassembler state: the byte buffer plus the parsing state. -/
structure SSEReassembler where
  buf : List Nat
  ls : LineState

/-- A fresh `SSEReassembler()` (sse.py 13–18). -/
def SSEReassembler.init : SSEReassembler :=
  ⟨[], ⟨[], none, [], none⟩⟩

/-- `self._buf.split(b"\n", 1)`: split at the first newline byte, if any. -/
def splitAtNl : List Nat → Option (List Nat × List Nat)
  | [] => none
  | c :: cs =>
    if c == 10 then some ([], cs)
    else
      match splitAtNl cs with
      | some (l, r) => some (c :: l, r)
      | none => none

/-- The `while b"\n" in self._buf` loop of `feed_bytes` (sse.py 22–24),
written with a byte-count fuel: every iteration consumes at least one byte,
so `buf.length` rounds of splitting always suffice. -/
def feedBytesAux (jl : String → Option J) (dec : List Nat → String) :
    Nat → List Nat → LineState → SSEReassembler
  | 0, buf, st => ⟨buf, st⟩
  | fuel + 1, buf, st =>
    match splitAtNl buf with
    | none => ⟨buf, st⟩
    | some (l, r) => feedBytesAux jl dec fuel r (feed_line jl (dec l) st)

/-- `SSEReassembler.feed_bytes` (sse.py 20–24): append the chunk to the
buffer, then extract and feed every complete line. -/
def feed_bytes (jl : String → Option J) (dec : List Nat → String)
    (st : SSEReassembler) (chunk : List Nat) : SSEReassembler :=
  let buf := st.buf ++ chunk
  feedBytesAux jl dec buf.length buf st.ls

/-- `SSEReassembler.reconstruct` (sse.py 101–104). -/
def reconstruct (st : SSEReassembler) : Option J :=
  st.ls.snapshot

/-! ## Header filtering and trace records (proxy.py lines 26–50, 234–269)

Header maps are insertion-ordered association lists; `out[k] = v` follows
Python dict-assignment semantics (`updateStr`).  aiohttp's header containers
are case-insensitive on *lookup* but preserve the stored spelling, which is
what the dict-comprehension and `.items()` iterations see. -/

/-- Hop-by-hop header names (proxy.py 26–37). -/
def HOP_BY_HOP : List String :=
  ["connection", "keep-alive", "proxy-authenticate", "proxy-authorization",
   "te", "trailers", "transfer-encoding", "upgrade"]

/-- Python `out[k] = v` on a string-valued dict. -/
def updateStr (out : List (String × String)) (k v : String) : List (String × String) :=
  if out.any (fun p => p.1 == k) then
    out.map (fun p => if p.1 == k then (p.1, v) else p)
  else out ++ [(k, v)]

/-- The value stored for a redacted credential header (proxy.py 46):
`v[:12] + "..." if len(v) > 12 else "***"`. -/
def redactValue (v : String) : String :=
  if strLen v > 12 then strTake v 12 ++ "..." else "***"

/-- `filter_headers` (proxy.py 40–50). -/
def filter_headers (headers : List (String × String)) (redact_keys : Bool) :
    List (String × String) :=
  headers.foldl
    (fun out p =>
      let k := p.1
      let v := p.2
      if HOP_BY_HOP.contains (strToLower k) then out
      else if redact_keys && (strToLower k == "x-api-key" || strToLower k == "authorization") then
        updateStr out k (redactValue v)
      else updateStr out k v)
    []

/-- The `{k: v for k, v in headers.items() if k.lower() not in HOP_BY_HOP}`
comprehension used for the headers returned to the client
(proxy.py 131–133 and 225–227). -/
def stripHopByHop (headers : List (String × String)) : List (String × String) :=
  headers.foldl
    (fun out p => if HOP_BY_HOP.contains (strToLower p.1) then out else updateStr out p.1 p.2)
    []

/-- `fwd_headers.pop("Host", None)` (proxy.py 67): drop the exact key. -/
def popKey (headers : List (String × String)) (k : String) : List (String × String) :=
  headers.filter (fun p => p.1 != k)

/-- A header map as the JSON object stored in a trace record. -/
def headersToJ (headers : List (String × String)) : J :=
  J.obj (headers.map (fun p => (p.1, J.s p.2)))

/-- A wire event `{"event": ..., "data": ...}` as stored under `sse_events`. -/
def wireEventToJ (e : String × J) : J :=
  J.obj [("event", J.s e.1), ("data", e.2)]

/-- `_build_record` (proxy.py 234–269).  `timestamp`, `req_id`, `turn` and
`duration_ms` are inputs here; the caller supplies them. -/
def build_record (timestamp req_id : String) (turn duration_ms : Int)
    (method path_qs : String) (req_headers : List (String × String)) (req_body : J)
    (status : Int) (resp_headers : List (String × String)) (resp_body : J)
    (sse_events : Option (List (String × J))) : J :=
  J.obj
    [("timestamp", J.s timestamp),
     ("request_id", J.s req_id),
     ("turn", J.i turn),
     ("duration_ms", J.i duration_ms),
     ("request", J.obj
        [("method", J.s method),
         ("path", J.s path_qs),
         ("headers", headersToJ (filter_headers req_headers true)),
         ("body", req_body)]),
     ("response", J.obj
        ([("status", J.i status),
          ("headers", headersToJ (filter_headers resp_headers false)),
          ("body", resp_body)] ++
         (match sse_events with
          | none => []
          | some evs => [("sse_events", J.arr (evs.map wireEventToJ))])))]

/-! ## `TraceWriter` (trace.py lines 15–69)

The JSONL file is modelled as the list of records appended so far (one JSON
line per entry).  `_update_stats` is straight-line code with no `try/except`:
a raising operation aborts it, keeping the mutations made before the raise,
and the exception propagates out of `write` (this is what claim C5 is about).
The result pairs the state as mutated so far with the escaped exception,
if any. -/

/-- The mutable state of a `TraceWriter`. -/
structure TraceWriterState where
  file : List J
  count : Int
  total_input_tokens : Int
  total_output_tokens : Int
  total_cache_read_tokens : Int
  total_cache_create_tokens : Int
  models_used : List (J × Int)

/-- A fresh `TraceWriter` (trace.py 18–31). -/
def TraceWriterState.init : TraceWriterState :=
  ⟨[], 0, 0, 0, 0, 0, []⟩

/-- Python dict keys must be hashable: JSON lists/dicts raise `TypeError`. -/
def pyHashable : J → Bool
  | J.arr _ => false
  | J.obj _ => false
  | _ => true

/-- Python `==` between hashable JSON scalars (dict-key equality; note that
`True == 1` in Python). -/
def pyKeyEq : J → J → Bool
  | J.null, J.null => true
  | J.b a, J.b c => a == c
  | J.i a, J.i c => a == c
  | J.b a, J.i c => (if a then (1 : Int) else 0) == c
  | J.i a, J.b c => a == (if c then (1 : Int) else 0)
  | J.s a, J.s c => a == c
  | _, _ => false

/-- `self.models_used[model] = self.models_used.get(model, 0) + 1`
(trace.py 54) for a hashable key. -/
def bumpModel (mu : List (J × Int)) (model : J) : List (J × Int) :=
  if mu.any (fun p => pyKeyEq p.1 model) then
    mu.map (fun p => if pyKeyEq p.1 model then (p.1, p.2 + 1) else p)
  else mu ++ [(model, 1)]

/-- `self.total_... += tok` where `tok` came from a JSON field: integer-like
values add, anything else raises `TypeError`. -/
def pyAddInt (acc : Int) (tok : J) : Except PyErr Int :=
  match pyAsInt tok with
  | some n => Except.ok (acc + n)
  | none => Except.error PyErr.typeError

/-- `TraceWriter._update_stats` (trace.py 50–69).  Returns the state as
mutated so far together with the exception that escaped, if any. -/
def update_stats (record : J) (st : TraceWriterState) :
    TraceWriterState × Option PyErr :=
  -- req_body = record.get("request", {}).get("body", {})
  match pyGetDefault record "request" (J.obj []) with
  | Except.error e => (st, some e)
  | Except.ok req =>
    match pyGetDefault req "body" (J.obj []) with
    | Except.error e => (st, some e)
    | Except.ok reqBody =>
      -- model = req_body.get("model", "unknown")
      match pyGetDefault reqBody "model" (J.s "unknown") with
      | Except.error e => (st, some e)
      | Except.ok model =>
        if !pyHashable model then (st, some PyErr.typeError)
        else
          let st1 := { st with models_used := bumpModel st.models_used model }
          -- resp_body = record.get("response", {}).get("body", {})
          match pyGetDefault record "response" (J.obj []) with
          | Except.error e => (st1, some e)
          | Except.ok resp =>
            match pyGetDefault resp "body" (J.obj []) with
            | Except.error e => (st1, some e)
            | Except.ok respBody =>
              -- usage = resp_body.get("usage", {})
              match pyGetDefault respBody "usage" (J.obj []) with
              | Except.error e => (st1, some e)
              | Except.ok usage0 =>
                -- if not usage and isinstance(resp_body, dict): usage = resp_body
                let usage := if !pyTruthy usage0 &&
                    (match respBody with | J.obj _ => true | _ => false)
                  then respBody else usage0
                match pyGetDefault usage "input_tokens" (J.i 0) with
                | Except.error e => (st1, some e)
                | Except.ok inTok =>
                  match pyGetDefault usage "output_tokens" (J.i 0) with
                  | Except.error e => (st1, some e)
                  | Except.ok outTok =>
                    match pyGetDefault usage "cache_read_input_tokens" (J.i 0) with
                    | Except.error e => (st1, some e)
                    | Except.ok cacheRead =>
                      match pyGetDefault usage "cache_creation_input_tokens" (J.i 0) with
                      | Except.error e => (st1, some e)
                      | Except.ok cacheCreate =>
                        match pyAddInt st1.total_input_tokens inTok with
                        | Except.error e => (st1, some e)
                        | Except.ok ti =>
                          let st2 := { st1 with total_input_tokens := ti }
                          match pyAddInt st2.total_output_tokens outTok with
                          | Except.error e => (st2, some e)
                          | Except.ok to2 =>
                            let st3 := { st2 with total_output_tokens := to2 }
                            match pyAddInt st3.total_cache_read_tokens cacheRead with
                            | Except.error e => (st3, some e)
                            | Except.ok tc =>
                              let st4 := { st3 with total_cache_read_tokens := tc }
                              match pyAddInt st4.total_cache_create_tokens cacheCreate with
                              | Except.error e => (st4, some e)
                              | Except.ok tcc =>
                                ({ st4 with total_cache_create_tokens := tcc }, none)

/-- `TraceWriter.write` (trace.py 32–42): inside the critical section, append
the record as one JSON line, flush, bump `count`, then `_update_stats`.
An exception from `_update_stats` escapes `write` (second component). -/
def TraceWriter.write (record : J) (st : TraceWriterState) :
    TraceWriterState × Option PyErr :=
  let st1 := { st with file := st.file ++ [record], count := st.count + 1 }
  update_stats record st1

/-! ## `proxy_handler` and its two branches (proxy.py lines 58–231)

The handler is modelled as a function of the inbound request and of the
upstream's behaviour.  `await session.request(...)` either raises a
connection-level exception (`UpstreamResult.connectionError`) or yields a
response with a status, headers, and the body as the list of chunks that
`iter_any()` will deliver (`.read()` returns their concatenation).
Wall-clock values (`req_id`, timestamps, durations) are parameters.
`gunzip`/`inflate` model `gzip.decompress`/`zlib.decompress` (`none` =
raise); `enc` models `str.encode("utf-8")`. -/

/-- The inbound `web.Request` data the handler consumes. -/
structure InboundRequest where
  method : String
  path_qs : String
  headers : List (String × String)
  body : List Nat

/-- Outcome of `await session.request(...)` (proxy.py 96–108). -/
inductive UpstreamResult where
  | connectionError (exc : String)
  | response (status : Int) (headers : List (String × String)) (chunks : List (List Nat))

/-- What one handler invocation produced: the client-visible response, the
headers actually sent upstream, and the records handed to `TraceWriter.write`. -/
structure HandlerOutcome where
  status : Int
  client_headers : List (String × String)
  client_body : List Nat
  forwarded_headers : List (String × String)
  records : List J

/-- `body if body else None` then `json.loads` with raw-string fallback
(proxy.py 71–75): the parsed request body. -/
def parseBody (jl : String → Option J) (dec : List Nat → String) (body : List Nat) : J :=
  if body.isEmpty then J.null
  else
    match jl (dec body) with
    | some v => v
    | none => J.s (dec body)

/-- `is_streaming = req_body.get("stream", False)` under `isinstance(req_body,
dict)`, used as a truth value (proxy.py 77–79, 110). -/
def isStreamingFlag (req_body : J) : Bool :=
  match req_body with
  | J.obj fs => pyTruthy (dget fs "stream" (J.b false))
  | _ => false

/-- Case-insensitive header lookup with a default:
`upstream_resp.headers.get("Content-Encoding", "")` on aiohttp's
case-insensitive header map (proxy.py 185). -/
def getHeaderCI (headers : List (String × String)) (k : String) (d : String) : String :=
  match headers.find? (fun p => strToLower p.1 == strToLower k) with
  | some p => p.2
  | none => d

/-- `_handle_streaming` (proxy.py 119–178): forward every chunk, feed the
same bytes to a fresh reassembler, then build and write one record carrying
`reconstruct()` as the body and the wire events under `sse_events`. -/
def handle_streaming (jl : String → Option J) (dec : List Nat → String)
    (timestamp req_id : String) (turn duration_ms : Int) (req : InboundRequest)
    (req_body : J) (status : Int) (up_headers : List (String × String))
    (chunks : List (List Nat)) : HandlerOutcome :=
  let r := chunks.foldl (feed_bytes jl dec) SSEReassembler.init
  let record := build_record timestamp req_id turn duration_ms
    req.method req.path_qs req.headers req_body
    status up_headers
    (match reconstruct r with | some v => v | none => J.null)
    (some r.ls.events)
  { status := status
    client_headers := stripHopByHop up_headers
    client_body := chunks.flatten
    forwarded_headers := []   -- filled in by `proxy_handler`
    records := [record] }

/-- `_handle_non_streaming` (proxy.py 180–231): buffer the body, decompress a
copy for tracing when gzip/deflate-encoded, JSON-parse with raw-string
fallback, write one record, and return the original bytes to the client. -/
def handle_non_streaming (jl : String → Option J) (dec : List Nat → String)
    (gunzip inflate : List Nat → Option (List Nat))
    (timestamp req_id : String) (turn duration_ms : Int) (req : InboundRequest)
    (req_body : J) (status : Int) (up_headers : List (String × String))
    (chunks : List (List Nat)) : HandlerOutcome :=
  let resp_bytes := chunks.flatten
  -- content_encoding = upstream_resp.headers.get("Content-Encoding", "").lower()
  let content_encoding := strToLower (getHeaderCI up_headers "Content-Encoding" "")
  let decode_bytes :=
    if !resp_bytes.isEmpty && (content_encoding == "gzip" || content_encoding == "deflate")
    then
      if content_encoding == "gzip" then
        match gunzip resp_bytes with
        | some d => d
        | none => resp_bytes     -- except Exception: pass
      else
        match inflate resp_bytes with
        | some d => d
        | none => resp_bytes
    else resp_bytes
  -- resp_body = json.loads(decode_bytes) if decode_bytes else None
  let resp_body :=
    if decode_bytes.isEmpty then J.null
    else
      match jl (dec decode_bytes) with
      | some v => v
      | none => J.s (dec decode_bytes)
  let record := build_record timestamp req_id turn duration_ms
    req.method req.path_qs req.headers req_body
    status up_headers resp_body none
  { status := status
    client_headers := stripHopByHop up_headers
    client_body := resp_bytes
    forwarded_headers := []
    records := [record] }

/-- `proxy_handler` (proxy.py 58–116): parse the body, compute the forwarded
headers, detect streaming, dispatch on the upstream result.  A connection
error returns `web.Response(status=502, text=str(exc))` and writes nothing. -/
def proxy_handler (jl : String → Option J) (dec : List Nat → String)
    (gunzip inflate : List Nat → Option (List Nat)) (enc : String → List Nat)
    (timestamp req_id : String) (turn duration_ms : Int)
    (req : InboundRequest) (up : UpstreamResult) : HandlerOutcome :=
  -- fwd_headers = filter_headers(request.headers); fwd_headers.pop("Host", None)
  let fwd0 := popKey (filter_headers req.headers false) "Host"
  let req_body := parseBody jl dec req.body
  let is_streaming := isStreamingFlag req_body
  -- if is_streaming: fwd_headers["Accept-Encoding"] = "identity"
  let fwd := if is_streaming then updateStr fwd0 "Accept-Encoding" "identity" else fwd0
  match up with
  | UpstreamResult.connectionError exc =>
    { status := 502
      client_headers := []
      client_body := enc exc
      forwarded_headers := fwd
      records := [] }
  | UpstreamResult.response status up_headers chunks =>
    if is_streaming && status == 200 then
      { handle_streaming jl dec timestamp req_id turn duration_ms req req_body
          status up_headers chunks with forwarded_headers := fwd }
    else
      { handle_non_streaming jl dec gunzip inflate timestamp req_id turn duration_ms
          req req_body status up_headers chunks with forwarded_headers := fwd }

/-- Folding the produced records through `TraceWriter.write` (ignoring the
escaped-exception channel): the trace writer state after a handler call. -/
def applyWrites (st : TraceWriterState) (records : List J) : TraceWriterState :=
  records.foldl (fun s r => (TraceWriter.write r s).1) st

/-! ## The turn counter under cooperative scheduling (proxy.py lines 58–97)

`proxy_handler` runs on one asyncio event loop: code between two `await`s is
atomic.  For the turn counter only the suspension structure matters, so a
handler is modelled as its list of atomic segments, a segment being `true`
iff it executes `ctx["turn_counter"] = ctx.get("turn_counter", 0) + 1`
(proxy.py 80–81).  The segments of `proxy_handler`, in program order:

* up to `await request.read()` (proxy.py 64) — no increment;
* from there up to `await session.request(...)` (proxy.py 97) — performs the
  increment (proxy.py 80) with no suspension in between;
* the rest of the handler — no further increment.

A schedule is a list of task indices; each step runs the chosen task's next
atomic segment to completion (this is exactly cooperative multitasking). -/

/-- The atomic segments of one `proxy_handler` invocation (`true` = the
segment that increments the turn counter). -/
def handlerSegs : List Bool := [false, true, false]

/-- One in-flight request: its remaining segments and its assigned turn. -/
structure TurnTask where
  segs : List Bool
  turn : Option Nat

/-- The shared per-session context (`ctx["turn_counter"]`) plus the tasks. -/
structure TurnState where
  counter : Nat
  tasks : List TurnTask

/-- `N` concurrent calls, none yet started, counter absent (treated as 0). -/
def TurnState.init (n : Nat) : TurnState :=
  ⟨0, List.replicate n ⟨handlerSegs, none⟩⟩

/-- Run the next atomic segment of task `i` (no-op on a finished or bogus
index).  The incrementing segment performs the read-modify-write and assigns
the new counter value as the task's turn, atomically. -/
def turnStep (st : TurnState) (i : Nat) : TurnState :=
  match st.tasks[i]? with
  | none => st
  | some t =>
    match t.segs with
    | [] => st
    | seg :: rest =>
      if seg then
        ⟨st.counter + 1, st.tasks.set i ⟨rest, some (st.counter + 1)⟩⟩
      else
        ⟨st.counter, st.tasks.set i ⟨rest, t.turn⟩⟩

/-- Run a whole schedule. -/
def turnRun (st : TurnState) (sched : List Nat) : TurnState :=
  sched.foldl turnStep st

/-! ## The live broadcaster under cooperative scheduling (live.py 57–140)

Shared state: the backlog `_records`, the subscriber list `_sse_clients`, and
the bytes each observer connection has been sent (`received`, keyed by an
observer id; records are represented by identifying numbers).

Tasks and their suspension structure:

* `broadcast(record)` — one atomic step takes the lock, appends to
  `_records`, releases, and enters the delivery loop (there is no `await`
  between the lock release and the first loop iteration); then one step per
  loop iteration: fetch `_sse_clients[i]`, `await client.write(...)`
  (the suspension), deliver, advance.  Delivery failures are not exercised
  here, so the `disconnected` sweep is empty.
* `_handle_sse` — one step for `await resp.prepare(request)`; one atomic
  step for the locked backlog replay followed by
  `self._sse_clients.append(resp)` (the replay holds the lock, and no other
  task can observe a state between the release and the append, which contain
  no `await`); the keepalive loop is irrelevant to delivery.

Lock-protected sections never interleave, so they are single steps; the
machine interleaves at exactly the remaining suspension points. -/

/-- Program counter of a `broadcast(r)` task. -/
inductive BPhase where
  | start : BPhase
  | deliver : Nat → BPhase
  | done : BPhase

/-- Program counter of an observer (`_handle_sse`) task. -/
inductive OPhase where
  | prepare : OPhase
  | replay : OPhase
  | live : OPhase

/-- A task of the live-viewer machine. -/
inductive LiveTask where
  | broadcast (r : Nat) (phase : BPhase)
  | observer (cid : Nat) (phase : OPhase)

/-- Shared state of the live-viewer machine. -/
structure LiveShared where
  records : List Nat
  clients : List Nat
  received : List (Nat × List Nat)

/-- The whole machine: shared state plus tasks. -/
structure LiveSys where
  shared : LiveShared
  tasks : List LiveTask

/-- Append record `r` to observer `cid`'s connection log. -/
def deliverTo (recv : List (Nat × List Nat)) (cid : Nat) (r : Nat) :
    List (Nat × List Nat) :=
  if recv.any (fun p => p.1 == cid) then
    recv.map (fun p => if p.1 == cid then (p.1, p.2 ++ [r]) else p)
  else recv ++ [(cid, [r])]

/-- One scheduler step: run the next atomic segment of task `ti`. -/
def liveStep (sys : LiveSys) (ti : Nat) : LiveSys :=
  match sys.tasks[ti]? with
  | none => sys
  | some task =>
    match task with
    | LiveTask.broadcast r BPhase.start =>
      -- async with self._lock: self._records.append(record)
      { shared := { sys.shared with records := sys.shared.records ++ [r] }
        tasks := sys.tasks.set ti (LiveTask.broadcast r (BPhase.deliver 0)) }
    | LiveTask.broadcast r (BPhase.deliver i) =>
      -- for client in self._sse_clients: await client.write(message)
      match sys.shared.clients[i]? with
      | some cid =>
        { shared := { sys.shared with received := deliverTo sys.shared.received cid r }
          tasks := sys.tasks.set ti (LiveTask.broadcast r (BPhase.deliver (i + 1))) }
      | none =>
        { sys with tasks := sys.tasks.set ti (LiveTask.broadcast r BPhase.done) }
    | LiveTask.broadcast _ BPhase.done => sys
    | LiveTask.observer cid OPhase.prepare =>
      -- await resp.prepare(request)
      { sys with tasks := sys.tasks.set ti (LiveTask.observer cid OPhase.replay) }
    | LiveTask.observer cid OPhase.replay =>
      -- async with self._lock: for record in self._records: await resp.write(...)
      -- self._sse_clients.append(resp)
      { shared := { sys.shared with
          received := sys.shared.records.foldl (fun rc r => deliverTo rc cid r)
            sys.shared.received
          clients := sys.shared.clients ++ [cid] }
        tasks := sys.tasks.set ti (LiveTask.observer cid OPhase.live) }
    | LiveTask.observer _ OPhase.live => sys

/-- Run a whole schedule of the live-viewer machine. -/
def liveRun (sys : LiveSys) (sched : List Nat) : LiveSys :=
  sched.foldl liveStep sys

/-- The scenario behind claim C9: observer `100` connects and is fully
registered, then `broadcast 7` runs concurrently with a second observer
`200` connecting. -/
def liveScenario : LiveSys :=
  { shared := ⟨[], [], []⟩
    tasks := [LiveTask.observer 100 OPhase.prepare,
              LiveTask.broadcast 7 BPhase.start,
              LiveTask.observer 200 OPhase.prepare] }

/-- What observer `cid`'s connection was sent, in order. -/
def receivedOf (sys : LiveSys) (cid : Nat) : List Nat :=
  match sys.shared.received.find? (fun p => p.1 == cid) with
  | some p => p.2
  | none => []

/-! ## Derived forms used by the statements -/

/-- Feed a list of already-delimited lines (used to state line-level facts
about `_feed_line`). -/
def feedLines (jl : String → Option J) (lines : List String) (st : LineState) : LineState :=
  lines.foldl (fun s l => feed_line jl l s) st

/-- Fold `_accumulate` over a list of `(event_type, data)` pairs. -/
def accumulateSeq (jl : String → Option J) (evs : List (String × J))
    (snap : Option J) : Option J :=
  evs.foldl (fun s e => accumulate jl e.1 e.2 s) snap

/-- A `content_block_delta` wire event carrying a text delta for block `idx`. -/
def textDeltaEvent (idx : Nat) (t : String) : String × J :=
  ("content_block_delta",
   J.obj [("index", J.i idx),
          ("delta", J.obj [("type", J.s "text_delta"), ("text", J.s t)])])

/-- A well-formed streamed exchange: `message_start`, `content_block_start`
at `idx`, text deltas `ts` at `idx`, `content_block_stop`, `message_delta`,
`message_stop`. -/
def streamEvents (mfs bfs : List (String × J)) (idx : Nat) (ts : List String)
    (dfs ufs : List (String × J)) : List (String × J) :=
  [("message_start", J.obj [("message", J.obj mfs)]),
   ("content_block_start", J.obj [("index", J.i idx), ("content_block", J.obj bfs)])] ++
  ts.map (textDeltaEvent idx) ++
  [("content_block_stop", J.obj [("index", J.i idx)]),
   ("message_delta", J.obj [("delta", J.obj dfs), ("usage", J.obj ufs)]),
   ("message_stop", J.obj [])]

/-- Concatenation of a list of strings, in order. -/
def strConcat : List String → String
  | [] => ""
  | t :: ts => t ++ strConcat ts

/-! # Theorems -/

/-- C3: for every inbound request, a connection-level upstream failure makes
`proxy_handler` return a 502 response whose body is the error text, with no
trace record written (folding the produced records through
`TraceWriter.write` leaves any writer state unchanged); and this is the only
such case — whenever the upstream produced a response, the handler writes
exactly one record. -/
theorem C3_connection_error_no_record
    (jl : String → Option J) (dec : List Nat → String)
    (gunzip inflate : List Nat → Option (List Nat)) (enc : String → List Nat)
    (timestamp req_id : String) (turn duration_ms : Int) (req : InboundRequest) :
    (∀ exc,
      (proxy_handler jl dec gunzip inflate enc timestamp req_id turn duration_ms req
        (UpstreamResult.connectionError exc)).status = 502 ∧
      (proxy_handler jl dec gunzip inflate enc timestamp req_id turn duration_ms req
        (UpstreamResult.connectionError exc)).client_body = enc exc ∧
      (proxy_handler jl dec gunzip inflate enc timestamp req_id turn duration_ms req
        (UpstreamResult.connectionError exc)).records = [] ∧
      ∀ w, applyWrites w (proxy_handler jl dec gunzip inflate enc timestamp req_id turn
        duration_ms req (UpstreamResult.connectionError exc)).records = w) ∧
    (∀ status up_headers chunks,
      (proxy_handler jl dec gunzip inflate enc timestamp req_id turn duration_ms req
        (UpstreamResult.response status up_headers chunks)).records.length = 1) := by
  constructor
  · intro exc
    refine ⟨rfl, rfl, rfl, ?_⟩
    intro w
    rfl
  · intro status up_headers chunks
    simp only [proxy_handler]
    split
    · rfl
    · rfl

/-- C10: when the request body asked for streaming but the upstream status is
not 200, the handler takes the non-streaming path: the client receives the
buffered upstream bytes unchanged, exactly one record is written whose
response body is the JSON-parsed (or raw-string fallback of the) buffered
bytes (no content-encoding in play), and the record has no `sse_events`
field. -/
theorem C10_streaming_request_non200_buffers
    (jl : String → Option J) (dec : List Nat → String)
    (gunzip inflate : List Nat → Option (List Nat)) (enc : String → List Nat)
    (timestamp req_id : String) (turn duration_ms : Int) (req : InboundRequest)
    (status : Int) (up_headers : List (String × String)) (chunks : List (List Nat))
    (hstream : isStreamingFlag (parseBody jl dec req.body) = true)
    (hstatus : status ≠ 200)
    (hce : strToLower (getHeaderCI up_headers "Content-Encoding" "") ≠ "gzip")
    (hce2 : strToLower (getHeaderCI up_headers "Content-Encoding" "") ≠ "deflate") :
    (proxy_handler jl dec gunzip inflate enc timestamp req_id turn duration_ms req
      (UpstreamResult.response status up_headers chunks)).client_body = chunks.flatten ∧
    (proxy_handler jl dec gunzip inflate enc timestamp req_id turn duration_ms req
      (UpstreamResult.response status up_headers chunks)).records =
      [build_record timestamp req_id turn duration_ms req.method req.path_qs
        req.headers (parseBody jl dec req.body) status up_headers
        (if chunks.flatten.isEmpty then J.null
         else match jl (dec chunks.flatten) with
              | some v => v
              | none => J.s (dec chunks.flatten)) none] ∧
    (∀ r ∈ (proxy_handler jl dec gunzip inflate enc timestamp req_id turn duration_ms req
        (UpstreamResult.response status up_headers chunks)).records,
      ∃ rfs, pyGetItem r "response" = Except.ok (J.obj rfs) ∧
        lookupJ rfs "sse_events" = none) := by
  have hs200 : (status == 200) = false := by
    simp [hstatus]
  have hcond : (isStreamingFlag (parseBody jl dec req.body) && (status == 200)) = false := by
    simp [hs200]
  have hgz : (strToLower (getHeaderCI up_headers "Content-Encoding" "") == "gzip") = false := by
    simp [hce]
  have hdf : (strToLower (getHeaderCI up_headers "Content-Encoding" "") == "deflate") = false := by
    simp [hce2]
  simp only [proxy_handler, hcond, if_neg, Bool.false_eq_true, not_false_iff,
    handle_non_streaming, hgz, hdf, Bool.or_self, Bool.and_false]
  refine ⟨by trivial, by trivial, ?_⟩
  intro r hr
  simp only [List.mem_singleton] at hr
  subst hr
  exact ⟨_, rfl, rfl⟩

/-- Witness for `C10_streaming_request_non200_buffers`: a streaming request
(`{"stream": true}`) answered with a 404 and body bytes `[104, 105]` is
buffered and returned byte-identically. -/
theorem C10_witness :
    (proxy_handler (fun _ => some (J.obj [("stream", J.b true)])) (fun _ => "hi")
        (fun _ => none) (fun _ => none) (fun _ => []) "ts" "id" 1 5
        ⟨"POST", "/v1/messages", [], [1]⟩
        (UpstreamResult.response 404 [] [[104, 105]])).client_body = [104, 105] :=
  (C10_streaming_request_non200_buffers (fun _ => some (J.obj [("stream", J.b true)]))
    (fun _ => "hi") (fun _ => none) (fun _ => none) (fun _ => []) "ts" "id" 1 5
    ⟨"POST", "/v1/messages", [], [1]⟩ 404 [] [[104, 105]]
    (by rfl) (by decide) (by decide) (by decide)).1

/-- C5 (code bug): `TraceWriter.write` is claimed never to raise past its
boundary, crediting `"unknown"` when no model is declared — but on a record
whose request body is `null` (exactly what `_build_record` stores for a
body-less request, e.g. any GET), `_update_stats` evaluates
`record.get("request", {}).get("body", {}).get("model", "unknown")` on `None`
and raises `AttributeError`, which escapes `write`.  The same happens for a
raw-string body.  For an object body the claimed behaviour does hold,
including the `"unknown"` default — second and third conjuncts. -/
theorem C5_write_raises_on_null_or_string_body :
    (TraceWriter.write
        (build_record "ts" "id" 1 5 "GET" "/v1/models" [] J.null 200 [] (J.s "ok") none)
        TraceWriterState.init).2 = some PyErr.attributeError ∧
    (update_stats
        (J.obj [("request", J.obj [("body", J.s "raw body")]),
                ("response", J.obj [("body", J.obj [])])])
        TraceWriterState.init).2 = some PyErr.attributeError ∧
    (TraceWriter.write
        (build_record "ts" "id" 1 5 "POST" "/v1/messages" [] (J.obj []) 200 []
          (J.obj [("usage", J.obj [("input_tokens", J.i 3), ("output_tokens", J.i 7)])]) none)
        TraceWriterState.init) =
      ({ file := [build_record "ts" "id" 1 5 "POST" "/v1/messages" [] (J.obj []) 200 []
            (J.obj [("usage", J.obj [("input_tokens", J.i 3), ("output_tokens", J.i 7)])]) none],
         count := 1, total_input_tokens := 3, total_output_tokens := 7,
         total_cache_read_tokens := 0, total_cache_create_tokens := 0,
         models_used := [(J.s "unknown", 1)] }, none) := by
  refine ⟨rfl, rfl, rfl⟩

/-- C9 (code bug): a legal interleaving in which `broadcast(7)` suspends in
its delivery loop (awaiting the write to the already-connected observer 100)
while observer 200 connects, replays the backlog — which already contains
record 7 — and registers; the loop then also delivers 7 to observer 200.
Record 7 was broadcast once but observer 200's connection receives it twice,
contradicting "no record delivered twice"; observer 100 correctly receives it
once. -/
theorem C9_replay_plus_live_duplicates :
    receivedOf (liveRun liveScenario [0, 0, 1, 1, 2, 2, 1, 1]) 200 = [7, 7] ∧
    (liveRun liveScenario [0, 0, 1, 1, 2, 2, 1, 1]).shared.records = [7] ∧
    receivedOf (liveRun liveScenario [0, 0, 1, 1, 2, 2, 1, 1]) 100 = [7] := by
  refine ⟨rfl, rfl, rfl⟩

/-- C4 (counterexample): in `proxy_handler` the first atomic segment — up to
`await request.read()` (proxy.py 64) — performs no counter increment, so the
handler reaches a suspension point before the turn counter is incremented
(proxy.py 80); consequently, in the schedule below, request 0 arrives first
(performs its first step before request 1 performs any) yet is assigned turn
2 while request 1 gets turn 1: turn numbers do not reflect arrival order. -/
theorem C4_increment_after_suspension_counterexample :
    handlerSegs.head? = some false ∧
    ((turnRun (TurnState.init 2) [0, 1, 1, 0, 0, 1]).tasks.map (fun t => t.turn)) =
      [some 2, some 1] := by
  refine ⟨rfl, by decide⟩

/-- Decomposition of a list around a valid index, compatible with `set`. -/
theorem list_get_set_decomp {α : Type} :
    ∀ (l : List α) (i : Nat) (t : α), l[i]? = some t →
      ∃ l₁ l₂, l = l₁ ++ t :: l₂ ∧ ∀ t' : α, l.set i t' = l₁ ++ t' :: l₂ := by
  intro l
  induction l with
  | nil => intro i t h; simp at h
  | cons a as ih =>
    intro i t h
    cases i with
    | zero =>
      simp only [List.getElem?_cons_zero, Option.some.injEq] at h
      subst h
      exact ⟨[], as, rfl, fun t' => rfl⟩
    | succ m =>
      simp only [List.getElem?_cons_succ] at h
      obtain ⟨l₁, l₂, hl, hset⟩ := ih m t h
      refine ⟨a :: l₁, l₂, by simp [hl], fun t' => ?_⟩
      simp [List.set, hset t']

/-- `filterMap` keeps every element when `f` is `some` on all of them. -/
theorem filterMap_length_of_all_some {α β : Type} (f : α → Option β) :
    ∀ l : List α, (∀ t ∈ l, (f t).isSome) → (l.filterMap f).length = l.length := by
  intro l
  induction l with
  | nil => intro _; rfl
  | cons a as ih =>
    intro h
    have ha := h a (List.mem_cons_self a as)
    obtain ⟨b, hb⟩ := Option.isSome_iff_exists.mp ha
    rw [List.filterMap_cons, hb]
    simp only [List.length_cons]
    rw [ih (fun t ht => h t (List.mem_cons_of_mem a ht))]

/-- Invariant of the turn-counter machine, preserved by every scheduler step:
the task-list length is fixed, the assigned turns are a permutation of
`1..counter`, and a task still carries its (single) increment segment iff its
turn is unassigned. -/
theorem turnStep_inv (st : TurnState) (i : Nat) (n : Nat)
    (hlen : st.tasks.length = n)
    (hperm : (st.tasks.filterMap (fun t => t.turn)).Perm (List.range' 1 st.counter))
    (hcnt : ∀ t ∈ st.tasks, (t.turn = none → t.segs.count true = 1) ∧
        (t.turn ≠ none → t.segs.count true = 0)) :
    (turnStep st i).tasks.length = n ∧
    ((turnStep st i).tasks.filterMap (fun t => t.turn)).Perm
      (List.range' 1 (turnStep st i).counter) ∧
    (∀ t ∈ (turnStep st i).tasks, (t.turn = none → t.segs.count true = 1) ∧
        (t.turn ≠ none → t.segs.count true = 0)) := by
  cases hget : st.tasks[i]? with
  | none =>
    have hstep : turnStep st i = st := by simp [turnStep, hget]
    rw [hstep]
    exact ⟨hlen, hperm, hcnt⟩
  | some t =>
    obtain ⟨l₁, l₂, hl, hset⟩ := list_get_set_decomp st.tasks i t hget
    have ht : t ∈ st.tasks := by
      rw [hl]
      exact List.mem_append.mpr (Or.inr (List.mem_cons_self _ _))
    have hmem_left : ∀ u : TurnTask, u ∈ l₁ → u ∈ st.tasks := by
      intro u hu
      rw [hl]
      exact List.mem_append.mpr (Or.inl hu)
    have hmem_right : ∀ u : TurnTask, u ∈ l₂ → u ∈ st.tasks := by
      intro u hu
      rw [hl]
      exact List.mem_append.mpr (Or.inr (List.mem_cons_of_mem _ hu))
    have hcnt_t := hcnt t ht
    cases hsegs : t.segs with
    | nil =>
      have hstep : turnStep st i = st := by simp [turnStep, hget, hsegs]
      rw [hstep]
      exact ⟨hlen, hperm, hcnt⟩
    | cons seg rest =>
      cases seg with
      | false =>
        have hstep : turnStep st i = ⟨st.counter, st.tasks.set i ⟨rest, t.turn⟩⟩ := by
          simp [turnStep, hget, hsegs]
        have hrest : rest.count true = t.segs.count true := by
          rw [hsegs]
          simp [List.count_cons]
        rw [hstep]
        refine ⟨by rw [hset]; rw [hl] at hlen; simpa using hlen, ?_, ?_⟩
        · rw [hset]
          have hfm_old : st.tasks.filterMap (fun t => t.turn) =
              l₁.filterMap (fun t => t.turn) ++ ((t.turn).toList ++
                l₂.filterMap (fun t => t.turn)) := by
            rw [hl, List.filterMap_append, List.filterMap_cons]
            cases t.turn <;> simp
          have hfm_new : (l₁ ++ (⟨rest, t.turn⟩ : TurnTask) :: l₂).filterMap
              (fun t => t.turn) =
              l₁.filterMap (fun t => t.turn) ++ ((t.turn).toList ++
                l₂.filterMap (fun t => t.turn)) := by
            rw [List.filterMap_append, List.filterMap_cons]
            cases t.turn <;> simp
          rw [hfm_new, ← hfm_old]
          exact hperm
        · intro u hu
          rw [hset] at hu
          rcases List.mem_append.mp hu with hu1 | hu2
          · exact hcnt u (hmem_left u hu1)
          · rcases List.mem_cons.mp hu2 with hu3 | hu4
            · subst hu3
              refine ⟨fun h => ?_, fun h => ?_⟩
              · rw [hrest]; exact hcnt_t.1 h
              · rw [hrest]; exact hcnt_t.2 h
            · exact hcnt u (hmem_right u hu4)
      | true =>
        have hstep : turnStep st i =
            ⟨st.counter + 1, st.tasks.set i ⟨rest, some (st.counter + 1)⟩⟩ := by
          simp [turnStep, hget, hsegs]
        have hturn : t.turn = none := by
          by_contra hne
          have h0 := hcnt_t.2 hne
          rw [hsegs] at h0
          simp [List.count_cons] at h0
        have hrest : rest.count true = 0 := by
          have h1 := hcnt_t.1 hturn
          rw [hsegs] at h1
          simp [List.count_cons] at h1
          omega
        rw [hstep]
        refine ⟨by rw [hset]; rw [hl] at hlen; simpa using hlen, ?_, ?_⟩
        · rw [hset]
          have hfm_old : st.tasks.filterMap (fun t => t.turn) =
              l₁.filterMap (fun t => t.turn) ++ l₂.filterMap (fun t => t.turn) := by
            rw [hl, List.filterMap_append, List.filterMap_cons, hturn]
          have hfm_new : (l₁ ++ (⟨rest, some (st.counter + 1)⟩ : TurnTask) :: l₂).filterMap
              (fun t => t.turn) =
              l₁.filterMap (fun t => t.turn) ++ (st.counter + 1) ::
                l₂.filterMap (fun t => t.turn) := by
            rw [List.filterMap_append, List.filterMap_cons]
          rw [hfm_new]
          refine List.Perm.trans List.perm_middle ?_
          have hstep2 : ((st.counter + 1) ::
              (l₁.filterMap (fun t => t.turn) ++ l₂.filterMap (fun t => t.turn))).Perm
              ((st.counter + 1) :: List.range' 1 st.counter) := by
            rw [← hfm_old]
            exact List.Perm.cons _ hperm
          refine hstep2.trans ?_
          rw [List.range'_concat 1 st.counter]
          have he : 1 + 1 * st.counter = st.counter + 1 := by omega
          rw [he]
          exact (List.perm_append_singleton _ _).symm
        · intro u hu
          rw [hset] at hu
          rcases List.mem_append.mp hu with hu1 | hu2
          · exact hcnt u (hmem_left u hu1)
          · rcases List.mem_cons.mp hu2 with hu3 | hu4
            · subst hu3
              exact ⟨fun h => by simp at h, fun _ => hrest⟩
            · exact hcnt u (hmem_right u hu4)

/-- The machine invariant holds after any schedule. -/
theorem turnRun_inv (n : Nat) :
    ∀ (sched : List Nat) (st : TurnState),
      st.tasks.length = n →
      (st.tasks.filterMap (fun t => t.turn)).Perm (List.range' 1 st.counter) →
      (∀ t ∈ st.tasks, (t.turn = none → t.segs.count true = 1) ∧
          (t.turn ≠ none → t.segs.count true = 0)) →
      (turnRun st sched).tasks.length = n ∧
      ((turnRun st sched).tasks.filterMap (fun t => t.turn)).Perm
        (List.range' 1 (turnRun st sched).counter) ∧
      (∀ t ∈ (turnRun st sched).tasks, (t.turn = none → t.segs.count true = 1) ∧
          (t.turn ≠ none → t.segs.count true = 0)) := by
  intro sched
  induction sched with
  | nil => intro st h1 h2 h3; exact ⟨h1, h2, h3⟩
  | cons i is ih =>
    intro st h1 h2 h3
    obtain ⟨g1, g2, g3⟩ := turnStep_inv st i n h1 h2 h3
    exact ih (turnStep st i) g1 g2 g3

/-- C4 (amended): in `proxy_handler` the turn counter is read, incremented
and assigned in one atomic segment — after the `await request.read()`
suspension but before the upstream request is awaited — so under any
cooperative schedule of `n` concurrent calls, the assigned turn numbers are
pairwise distinct, and once every call has run to completion the turns are
exactly a permutation of `1..n` (turn order reflects the order in which the
calls completed their body read, not necessarily arrival order). -/
theorem C4_turns_unique_permutation (n : Nat) (sched : List Nat) :
    ((turnRun (TurnState.init n) sched).tasks.filterMap (fun t => t.turn)).Nodup ∧
    ((∀ t ∈ (turnRun (TurnState.init n) sched).tasks, t.segs = []) →
      ((turnRun (TurnState.init n) sched).tasks.filterMap (fun t => t.turn)).Perm
        (List.range' 1 n)) := by
  have hinit1 : (TurnState.init n).tasks.length = n := by
    simp [TurnState.init]
  have hinit2 : ((TurnState.init n).tasks.filterMap (fun t => t.turn)).Perm
      (List.range' 1 (TurnState.init n).counter) := by
    have h0 : ((TurnState.init n).tasks.filterMap (fun t => t.turn)) = [] := by
      rw [List.filterMap_eq_nil_iff]
      intro t ht
      simp only [TurnState.init] at ht
      rw [List.eq_of_mem_replicate ht]
    rw [h0]
    simp [TurnState.init]
  have hinit3 : ∀ t ∈ (TurnState.init n).tasks,
      (t.turn = none → t.segs.count true = 1) ∧
      (t.turn ≠ none → t.segs.count true = 0) := by
    intro t ht
    rw [List.eq_of_mem_replicate ht]
    exact ⟨fun _ => by decide, fun h => absurd rfl h⟩
  obtain ⟨hlen, hperm, hcnt⟩ := turnRun_inv n sched (TurnState.init n) hinit1 hinit2 hinit3
  constructor
  · exact hperm.symm.nodup (List.nodup_range' 1 _)
  · intro hfin
    have hall : ∀ t ∈ (turnRun (TurnState.init n) sched).tasks,
        ((fun t : TurnTask => t.turn) t).isSome := by
      intro t ht
      cases hturn : t.turn with
      | some _ => simp [hturn]
      | none =>
        have h1 := (hcnt t ht).1 hturn
        rw [hfin t ht] at h1
        simp at h1
    have hflen := filterMap_length_of_all_some (fun t : TurnTask => t.turn)
      (turnRun (TurnState.init n) sched).tasks hall
    have hc : (turnRun (TurnState.init n) sched).counter = n := by
      have h1 := hperm.length_eq
      rw [hflen, hlen] at h1
      simpa using h1.symm
    rw [hc] at hperm
    exact hperm

/-- Witness for `C4_turns_unique_permutation`: two calls scheduled to
completion in the interleaving of the counterexample receive turns `{1, 2}`. -/
theorem C4_turns_witness :
    ((turnRun (TurnState.init 2) [0, 1, 1, 0, 0, 1]).tasks.filterMap
      (fun t => t.turn)).Perm (List.range' 1 2) :=
  (C4_turns_unique_permutation 2 [0, 1, 1, 0, 0, 1]).2 (by decide)

/-- Whatever `updateStr` returns came from the accumulator or is the new
binding. -/
theorem mem_updateStr (out : List (String × String)) (k v : String)
    (p : String × String) (hp : p ∈ updateStr out k v) : p ∈ out ∨ p = (k, v) := by
  unfold updateStr at hp
  split at hp
  · obtain ⟨q, hq, hpq⟩ := List.mem_map.mp hp
    by_cases hqk : (q.1 == k) = true
    · rw [if_pos hqk] at hpq
      right
      rw [← hpq]
      simp [eq_of_beq hqk]
    · rw [if_neg hqk] at hpq
      left
      rw [← hpq]
      exact hq
  · rcases List.mem_append.mp hp with h | h
    · exact Or.inl h
    · right
      simpa using h

/-- Every binding produced by `filter_headers hs true` stems from some input
binding under the same name; credential names carry the redacted value, other
names the original one. -/
theorem filter_true_mem :
    ∀ (hs out : List (String × String)) (p : String × String),
    p ∈ hs.foldl (fun out q =>
        if HOP_BY_HOP.contains (strToLower q.1) then out
        else if true && (strToLower q.1 == "x-api-key" || strToLower q.1 == "authorization")
        then updateStr out q.1 (redactValue q.2)
        else updateStr out q.1 q.2) out →
    p ∈ out ∨ ∃ v₀, (p.1, v₀) ∈ hs ∧
      p.2 = (if strToLower p.1 == "x-api-key" || strToLower p.1 == "authorization"
             then redactValue v₀ else v₀) := by
  intro hs
  induction hs with
  | nil => intro out p hp; exact Or.inl hp
  | cons a as ih =>
    intro out p hp
    rw [List.foldl_cons] at hp
    rcases ih _ p hp with h | ⟨v₀, hmem, hval⟩
    · by_cases hhop : HOP_BY_HOP.contains (strToLower a.1) = true
      · rw [if_pos hhop] at h
        exact Or.inl h
      · rw [if_neg hhop] at h
        by_cases hcred : (strToLower a.1 == "x-api-key" || strToLower a.1 == "authorization") = true
        · rw [if_pos (by simp [hcred])] at h
          rcases mem_updateStr _ _ _ _ h with h1 | h2
          · exact Or.inl h1
          · subst h2
            exact Or.inr ⟨a.2, List.mem_cons_self a as, (if_pos hcred).symm⟩
        · rw [if_neg (by simp [hcred])] at h
          rcases mem_updateStr _ _ _ _ h with h1 | h2
          · exact Or.inl h1
          · subst h2
            exact Or.inr ⟨a.2, List.mem_cons_self a as, (if_neg hcred).symm⟩
    · exact Or.inr ⟨v₀, List.mem_cons_of_mem a hmem, hval⟩

/-- `filter_headers · false` only passes input bindings through. -/
theorem filter_false_subset_aux :
    ∀ (hs out : List (String × String)) (p : String × String),
    p ∈ hs.foldl (fun out q =>
        if HOP_BY_HOP.contains (strToLower q.1) then out
        else if false && (strToLower q.1 == "x-api-key" || strToLower q.1 == "authorization")
        then updateStr out q.1 (redactValue q.2)
        else updateStr out q.1 q.2) out →
    p ∈ out ∨ p ∈ hs := by
  intro hs
  induction hs with
  | nil => intro out p hp; exact Or.inl hp
  | cons a as ih =>
    intro out p hp
    rw [List.foldl_cons] at hp
    rcases ih _ p hp with h | h
    · by_cases hhop : HOP_BY_HOP.contains (strToLower a.1) = true
      · rw [if_pos hhop] at h
        exact Or.inl h
      · rw [if_neg hhop, if_neg (by simp)] at h
        rcases mem_updateStr _ _ _ _ h with h1 | h2
        · exact Or.inl h1
        · right
          rw [h2]
          exact List.mem_cons_self a as
    · exact Or.inr (List.mem_cons_of_mem a h)

/-- The client-facing dict comprehension only passes input bindings through. -/
theorem stripHopByHop_subset_aux :
    ∀ (hs out : List (String × String)) (p : String × String),
    p ∈ hs.foldl (fun out q =>
        if HOP_BY_HOP.contains (strToLower q.1) then out else updateStr out q.1 q.2) out →
    p ∈ out ∨ p ∈ hs := by
  intro hs
  induction hs with
  | nil => intro out p hp; exact Or.inl hp
  | cons a as ih =>
    intro out p hp
    rw [List.foldl_cons] at hp
    rcases ih _ p hp with h | h
    · by_cases hhop : HOP_BY_HOP.contains (strToLower a.1) = true
      · rw [if_pos hhop] at h
        exact Or.inl h
      · rw [if_neg hhop] at h
        rcases mem_updateStr _ _ _ _ h with h1 | h2
        · exact Or.inl h1
        · right
          rw [h2]
          exact List.mem_cons_self a as
    · exact Or.inr (List.mem_cons_of_mem a h)

/-- C6: credential redaction.  (1) In a redacted header map every binding
whose name case-insensitively matches the API-key or bearer-auth header names
carries the redaction of an input value under that name; (2)/(3) values
longer than 12 characters become a 12-character prefix plus `"..."`, shorter
ones become `"***"`; (4) redaction always loses information — for every value
some different value redacts identically, so the original is not recoverable
byte-for-byte from the persisted record; (5) filtering without the redaction
flag only passes original bindings through; (6) the trace record redacts
exactly the request headers and not the response headers; (7) the headers
forwarded upstream and (8) the headers returned to the client are original,
unredacted bindings. -/
theorem C6_credential_headers_redacted :
    (∀ (hs : List (String × String)) (p : String × String),
      p ∈ filter_headers hs true →
      (strToLower p.1 == "x-api-key" || strToLower p.1 == "authorization") = true →
      ∃ v₀, (p.1, v₀) ∈ hs ∧ p.2 = redactValue v₀) ∧
    (∀ v, strLen v > 12 → redactValue v = strTake v 12 ++ "...") ∧
    (∀ v, ¬ strLen v > 12 → redactValue v = "***") ∧
    (∀ v, ∃ w, w ≠ v ∧ redactValue w = redactValue v) ∧
    (∀ (hs : List (String × String)) (p : String × String),
      p ∈ filter_headers hs false → p ∈ hs) ∧
    (∀ timestamp req_id turn duration_ms method path_qs req_headers req_body status
        resp_headers resp_body sse_events,
      Except.bind (pyGetItem (build_record timestamp req_id turn duration_ms method
          path_qs req_headers req_body status resp_headers resp_body sse_events)
          "request") (fun r => pyGetItem r "headers")
        = Except.ok (headersToJ (filter_headers req_headers true)) ∧
      Except.bind (pyGetItem (build_record timestamp req_id turn duration_ms method
          path_qs req_headers req_body status resp_headers resp_body sse_events)
          "response") (fun r => pyGetItem r "headers")
        = Except.ok (headersToJ (filter_headers resp_headers false))) ∧
    (∀ jl dec gunzip inflate enc timestamp req_id turn duration_ms
        (req : InboundRequest) up (p : String × String),
      p ∈ (proxy_handler jl dec gunzip inflate enc timestamp req_id turn duration_ms
        req up).forwarded_headers → p.1 ≠ "Accept-Encoding" → p ∈ req.headers) ∧
    (∀ jl dec gunzip inflate enc timestamp req_id turn duration_ms
        (req : InboundRequest) status up_headers chunks (p : String × String),
      p ∈ (proxy_handler jl dec gunzip inflate enc timestamp req_id turn duration_ms
        req (UpstreamResult.response status up_headers chunks)).client_headers →
      p ∈ up_headers) := by
  refine ⟨?_, ?_, ?_, ?_, ?_, ?_, ?_, ?_⟩
  · -- (1) redacted bindings stem from input values
    intro hs p hp hcred
    rcases filter_true_mem hs [] p hp with h | ⟨v₀, hmem, hval⟩
    · simp at h
    · rw [if_pos hcred] at hval
      exact ⟨v₀, hmem, hval⟩
  · -- (2) long values: prefix + ellipsis
    intro v hv
    rw [redactValue, if_pos hv]
  · -- (3) short values: full mask
    intro v hv
    rw [redactValue, if_neg hv]
  · -- (4) redaction is never injective at any value
    intro v
    have hlapp : ∀ a b : String, strLen (a ++ b) = strLen a + strLen b := by
      intro a b
      rw [strLen, strLen, strLen, String.toList, String.toList, String.toList,
        String.data_append, List.length_append]
    have hx1 : strLen "x" = 1 := rfl
    by_cases hv : strLen v > 12
    · refine ⟨v ++ "x", ?_, ?_⟩
      · intro h
        have h2 : strLen (v ++ "x") = strLen v := by rw [h]
        rw [hlapp, hx1] at h2
        omega
      · have hlong : strLen (v ++ "x") > 12 := by
          rw [hlapp, hx1]
          omega
        rw [redactValue, redactValue, if_pos hlong, if_pos hv]
        have htake : strTake (v ++ "x") 12 = strTake v 12 := by
          rw [strTake, strTake, String.toList, String.toList, String.data_append,
            List.take_append_eq_append_take]
          have hd : strLen v = v.data.length := rfl
          have h12 : 12 - v.data.length = 0 := by omega
          rw [h12]
          simp
        rw [htake]
    · by_cases hva : v = "a"
      · refine ⟨"", by simp [hva], ?_⟩
        rw [redactValue, redactValue, if_neg hv, if_neg (by decide)]
      · refine ⟨"a", fun h => hva h.symm, ?_⟩
        rw [redactValue, redactValue, if_neg hv, if_neg (by decide)]
  · -- (5) without the flag, bindings pass through unchanged
    intro hs p hp
    rcases filter_false_subset_aux hs [] p hp with h | h
    · simp at h
    · exact h
  · -- (6) the record redacts request headers, not response headers
    intro timestamp req_id turn duration_ms method path_qs req_headers req_body status
      resp_headers resp_body sse_events
    constructor
    · rfl
    · cases sse_events <;> rfl
  · -- (7) forwarded headers are original bindings (plus Accept-Encoding)
    intro jl dec gunzip inflate enc timestamp req_id turn duration_ms req up p hp hae
    have hfwd : (proxy_handler jl dec gunzip inflate enc timestamp req_id turn
        duration_ms req up).forwarded_headers =
        (if isStreamingFlag (parseBody jl dec req.body) then
          updateStr (popKey (filter_headers req.headers false) "Host")
            "Accept-Encoding" "identity"
        else popKey (filter_headers req.headers false) "Host") := by
      cases up with
      | connectionError exc => rfl
      | response status up_headers chunks =>
        simp only [proxy_handler]
        split <;> rfl
    rw [hfwd] at hp
    have hp0 : p ∈ popKey (filter_headers req.headers false) "Host" := by
      by_cases hstr : isStreamingFlag (parseBody jl dec req.body) = true
      · rw [if_pos hstr] at hp
        rcases mem_updateStr _ _ _ _ hp with h | h
        · exact h
        · exact absurd (congrArg Prod.fst h) hae
      · rw [if_neg hstr] at hp
        exact hp
    have hp1 : p ∈ filter_headers req.headers false := List.mem_of_mem_filter hp0
    rcases filter_false_subset_aux req.headers [] p hp1 with h | h
    · simp at h
    · exact h
  · -- (8) client headers are original upstream bindings
    intro jl dec gunzip inflate enc timestamp req_id turn duration_ms req status
      up_headers chunks p hp
    have hch : (proxy_handler jl dec gunzip inflate enc timestamp req_id turn
        duration_ms req (UpstreamResult.response status up_headers chunks)).client_headers
        = stripHopByHop up_headers := by
      simp only [proxy_handler]
      split <;> rfl
    rw [hch] at hp
    rcases stripHopByHop_subset_aux up_headers [] p hp with h | h
    · simp at h
    · exact h

/-- Witness for `C6_credential_headers_redacted`: the binding stored for
`X-Api-Key` in a redacted header map is the redaction of the input value. -/
theorem C6_witness :
    ∃ v₀, (("X-Api-Key" : String), v₀) ∈
        [(("X-Api-Key" : String), ("sk-ant-1234567890abcdef" : String))] ∧
      ("sk-ant-12345..." : String) = redactValue v₀ :=
  C6_credential_headers_redacted.1 [("X-Api-Key", "sk-ant-1234567890abcdef")]
    ("X-Api-Key", "sk-ant-12345...")
    (by decide) (by decide)

/-- C8: a `content_block_delta` or `content_block_stop` addressed at an index
with no corresponding block slot — at or beyond the end of the content array,
or negative beyond its start — leaves the snapshot completely unchanged. -/
theorem C8_out_of_bounds_delta_ignored
    (jl : String → Option J) (fs : List (String × J)) (blocks : List J)
    (dfs : List (String × J)) (idx : Int)
    (hcontent : lookupJ fs "content" = some (J.arr blocks))
    (hidx : lookupJ dfs "index" = some (J.i idx))
    (hoob : (blocks.length : Int) ≤ idx ∨ idx < -(blocks.length : Int)) :
    accumulate jl "content_block_delta" (J.obj dfs) (some (J.obj fs)) =
      some (J.obj fs) ∧
    accumulate jl "content_block_stop" (J.obj dfs) (some (J.obj fs)) =
      some (J.obj fs) := by
  have hget : pyGetDefault (J.obj fs) "content" (J.arr []) = Except.ok (J.arr blocks) := by
    simp [pyGetDefault, dget, hcontent]
  have hgi : pyGetItem (J.obj fs) "content" = Except.ok (J.arr blocks) := by
    simp [pyGetItem, hcontent]
  have hidx' : dget dfs "index" (J.i 0) = J.i idx := by
    simp [dget, hidx]
  rcases hoob with hle | hneg
  · have hcond : ¬ (idx < (blocks.length : Int)) := by omega
    constructor
    · show some (accBlockDelta dfs (J.obj fs)) = some (J.obj fs)
      simp [accBlockDelta, hidx', hget, pyLen, pyAsInt, hcond]
    · show some (accBlockStop jl dfs (J.obj fs)) = some (J.obj fs)
      simp [accBlockStop, hidx', hget, pyLen, pyAsInt, hcond]
  · have hcond : idx < (blocks.length : Int) := by omega
    have h1 : idx < 0 := by omega
    have h2 : idx + (blocks.length : Int) < 0 := by omega
    have hpyidx : pyIndex (J.arr blocks) idx = Except.error PyErr.indexError := by
      simp [pyIndex, h1, h2]
    constructor
    · show some (accBlockDelta dfs (J.obj fs)) = some (J.obj fs)
      simp [accBlockDelta, hidx', hget, hgi, pyLen, pyAsInt, hcond, hpyidx]
    · show some (accBlockStop jl dfs (J.obj fs)) = some (J.obj fs)
      simp [accBlockStop, hidx', hget, hgi, pyLen, pyAsInt, hcond, hpyidx]

/-- Witness for `C8_out_of_bounds_delta_ignored`: a text delta addressed at
index 5 of a one-block content array mutates nothing. -/
theorem C8_witness :
    accumulate (fun _ => none) "content_block_delta"
      (J.obj [("index", J.i 5), ("delta", J.obj [("type", J.s "text_delta"),
        ("text", J.s "x")])])
      (some (J.obj [("content", J.arr [J.obj []])])) =
      some (J.obj [("content", J.arr [J.obj []])]) :=
  (C8_out_of_bounds_delta_ignored (fun _ => none)
    [("content", J.arr [J.obj []])] [J.obj []]
    [("index", J.i 5), ("delta", J.obj [("type", J.s "text_delta"), ("text", J.s "x")])]
    5 (by rfl) (by rfl) (Or.inl (by decide))).1

/-- Splitting never yields a longer remainder. -/
theorem splitAtNl_some_length :
    ∀ (x l r : List Nat), splitAtNl x = some (l, r) → r.length < x.length := by
  intro x
  induction x with
  | nil => intro l r h; simp [splitAtNl] at h
  | cons c cs ih =>
    intro l r h
    rw [splitAtNl] at h
    by_cases hc : (c == 10) = true
    · rw [if_pos hc] at h
      simp only [Option.some.injEq, Prod.mk.injEq] at h
      rw [← h.2]
      simp
    · rw [if_neg hc] at h
      cases hs : splitAtNl cs with
      | none => rw [hs] at h; simp at h
      | some p =>
        rw [hs] at h
        simp only [Option.some.injEq, Prod.mk.injEq] at h
        have := ih p.1 p.2 (by rw [hs])
        rw [← h.2]
        simp only [List.length_cons]
        omega

/-- The first newline of `x ++ y` lies in `x` whenever `x` contains one. -/
theorem splitAtNl_append_of_some :
    ∀ (x y l r : List Nat), splitAtNl x = some (l, r) →
      splitAtNl (x ++ y) = some (l, r ++ y) := by
  intro x
  induction x with
  | nil => intro y l r h; simp [splitAtNl] at h
  | cons c cs ih =>
    intro y l r h
    rw [splitAtNl] at h
    rw [List.cons_append, splitAtNl]
    by_cases hc : (c == 10) = true
    · rw [if_pos hc] at h ⊢
      simp only [Option.some.injEq, Prod.mk.injEq] at h
      rw [← h.1, ← h.2]
    · rw [if_neg hc] at h ⊢
      cases hs : splitAtNl cs with
      | none => rw [hs] at h; simp at h
      | some p =>
        rw [hs] at h
        simp only [Option.some.injEq, Prod.mk.injEq] at h
        rw [ih y p.1 p.2 (by rw [hs])]
        simp only [Option.some.injEq, Prod.mk.injEq]
        exact ⟨by rw [← h.1], by rw [← h.2]⟩

/-- A buffer with no newline is left untouched by the extraction loop. -/
theorem feedBytesAux_of_none (jl : String → Option J) (dec : List Nat → String)
    (x : List Nat) (ls : LineState) (h : splitAtNl x = none) :
    feedBytesAux jl dec x.length x ls = ⟨x, ls⟩ := by
  cases hx : x.length with
  | zero => rw [feedBytesAux]
  | succ n => rw [feedBytesAux, h]

/-- The extraction loop is fuel-insensitive as soon as the fuel covers the
buffer length. -/
theorem feedBytesAux_fuel (jl : String → Option J) (dec : List Nat → String) :
    ∀ (f₁ f₂ : Nat) (buf : List Nat) (st : LineState),
      buf.length ≤ f₁ → buf.length ≤ f₂ →
      feedBytesAux jl dec f₁ buf st = feedBytesAux jl dec f₂ buf st := by
  intro f₁
  induction f₁ with
  | zero =>
    intro f₂ buf st h₁ h₂
    have hb : buf = [] := List.length_eq_zero.mp (Nat.le_zero.mp h₁)
    subst hb
    cases f₂ with
    | zero => rfl
    | succ m => rw [feedBytesAux, feedBytesAux]; rfl
  | succ n ih =>
    intro f₂ buf st h₁ h₂
    cases f₂ with
    | zero =>
      have hb : buf = [] := List.length_eq_zero.mp (Nat.le_zero.mp h₂)
      subst hb
      rw [feedBytesAux, feedBytesAux]
      rfl
    | succ m =>
      rw [feedBytesAux, feedBytesAux]
      cases hs : splitAtNl buf with
      | none => rfl
      | some p =>
        have hlt := splitAtNl_some_length buf p.1 p.2 (by rw [hs])
        exact ih m p.2 (feed_line jl (dec p.1) st) (by omega) (by omega)

/-- One loop iteration, stated with exact fuels. -/
theorem feedBytesAux_step (jl : String → Option J) (dec : List Nat → String)
    (x l r : List Nat) (ls : LineState) (h : splitAtNl x = some (l, r)) :
    feedBytesAux jl dec x.length x ls =
      feedBytesAux jl dec r.length r (feed_line jl (dec l) ls) := by
  have hlt := splitAtNl_some_length x l r h
  cases hx : x.length with
  | zero =>
    have hb : x = [] := List.length_eq_zero.mp hx
    subst hb
    simp [splitAtNl] at h
  | succ n =>
    rw [feedBytesAux, h]
    exact feedBytesAux_fuel jl dec n r.length r (feed_line jl (dec l) ls)
      (by omega) (by omega)

/-- Processing `x ++ y` is processing `x`, then processing the leftover
buffer extended by `y`. -/
theorem feedBytesAux_append (jl : String → Option J) (dec : List Nat → String) :
    ∀ (n : Nat) (x : List Nat), x.length ≤ n → ∀ (y : List Nat) (ls : LineState),
      feedBytesAux jl dec (x ++ y).length (x ++ y) ls =
        feedBytesAux jl dec
          ((feedBytesAux jl dec x.length x ls).buf ++ y).length
          ((feedBytesAux jl dec x.length x ls).buf ++ y)
          (feedBytesAux jl dec x.length x ls).ls := by
  intro n
  induction n with
  | zero =>
    intro x hx y ls
    have hb : x = [] := List.length_eq_zero.mp (Nat.le_zero.mp hx)
    subst hb
    rfl
  | succ n ih =>
    intro x hx y ls
    cases hs : splitAtNl x with
    | none =>
      rw [feedBytesAux_of_none jl dec x ls hs]
    | some p =>
      have hlt := splitAtNl_some_length x p.1 p.2 (by rw [hs])
      have h1 := feedBytesAux_step jl dec (x ++ y) p.1 (p.2 ++ y) ls
        (splitAtNl_append_of_some x y p.1 p.2 (by rw [hs]))
      have h2 := feedBytesAux_step jl dec x p.1 p.2 ls (by rw [hs])
      rw [h1, h2]
      exact ih p.2 (by omega) y (feed_line jl (dec p.1) ls)

/-- `feed_bytes` composes over concatenation of chunks. -/
theorem feed_bytes_append (jl : String → Option J) (dec : List Nat → String)
    (st : SSEReassembler) (a b : List Nat) :
    feed_bytes jl dec (feed_bytes jl dec st a) b = feed_bytes jl dec st (a ++ b) := by
  show feedBytesAux jl dec
      ((feedBytesAux jl dec (st.buf ++ a).length (st.buf ++ a) st.ls).buf ++ b).length
      ((feedBytesAux jl dec (st.buf ++ a).length (st.buf ++ a) st.ls).buf ++ b)
      (feedBytesAux jl dec (st.buf ++ a).length (st.buf ++ a) st.ls).ls =
    feedBytesAux jl dec (st.buf ++ (a ++ b)).length (st.buf ++ (a ++ b)) st.ls
  rw [← List.append_assoc]
  exact (feedBytesAux_append jl dec (st.buf ++ a).length (st.buf ++ a) (Nat.le_refl _)
    b st.ls).symm

/-- Folding `feed_bytes` over chunks equals one call on the concatenation. -/
theorem feed_bytes_foldl (jl : String → Option J) (dec : List Nat → String) :
    ∀ (cs : List (List Nat)) (st : SSEReassembler) (a : List Nat),
      cs.foldl (feed_bytes jl dec) (feed_bytes jl dec st a) =
        feed_bytes jl dec st (a ++ cs.flatten) := by
  intro cs
  induction cs with
  | nil =>
    intro st a
    rw [List.foldl_nil, List.flatten_nil, List.append_nil]
  | cons c cs ih =>
    intro st a
    rw [List.foldl_cons, feed_bytes_append jl dec st a c, ih st (a ++ c),
      List.flatten_cons, List.append_assoc]

/-- C1: feeding any byte sequence to a fresh `SSEReassembler` in arbitrary
chunks produces exactly the same reassembler state — in particular the same
Wire Event list and the same snapshot — as feeding the whole sequence in a
single `feed_bytes` call, for every decoder and JSON parser.  (The embedded
`feed_bytes` is a total function: every operation it performs — buffering,
splitting at newlines, decoding with replacement, line parsing with
JSON-fallback, accumulation under `except: pass` — is total, which is the
model of "never raises".) -/
theorem C1_chunk_boundary_invariance (jl : String → Option J)
    (dec : List Nat → String) (chunks : List (List Nat)) :
    chunks.foldl (feed_bytes jl dec) SSEReassembler.init =
      feed_bytes jl dec SSEReassembler.init chunks.flatten := by
  cases chunks with
  | nil => rfl
  | cons c cs =>
    rw [List.foldl_cons, List.flatten_cons]
    have h0 : feed_bytes jl dec SSEReassembler.init c =
        feed_bytes jl dec SSEReassembler.init ([] ++ c) := rfl
    rw [h0, feed_bytes_foldl jl dec cs SSEReassembler.init ([] ++ c)]
    rfl

/-- `_feed_line` on an `event:` field line. -/
theorem feed_line_event (jl : String → Option J) (line : String) (st : LineState)
    (h : strStartsWith (rstripCR line) "event:" = true) :
    feed_line jl line st =
      { st with current_event := some (pyStrip (strDrop (rstripCR line) 6)),
                current_data_lines := [] } := by
  simp only [feed_line, h, if_true]

/-- A line starting with `data:` does not start with `event:`. -/
theorem data_not_event (l : String) (h : strStartsWith l "data:" = true) :
    strStartsWith l "event:" = false := by
  rw [strStartsWith] at h ⊢
  have hd : ("data:" : String).toList = ['d', 'a', 't', 'a', ':'] := rfl
  have he : ("event:" : String).toList = ['e', 'v', 'e', 'n', 't', ':'] := rfl
  rw [hd] at h
  rw [he]
  cases hl : l.toList with
  | nil => rw [hl] at h; simp at h
  | cons c rest =>
    rw [hl] at h
    simp only [List.isPrefixOf_cons₂, Bool.and_eq_true, beq_iff_eq] at h
    obtain ⟨hc, _⟩ := h
    subst hc
    simp [List.isPrefixOf_cons₂]

/-- `_feed_line` on a `data:` field line: only the pending data lines grow. -/
theorem feed_line_data (jl : String → Option J) (line : String) (st : LineState)
    (h : strStartsWith (rstripCR line) "data:" = true) :
    feed_line jl line st =
      { st with current_data_lines :=
          st.current_data_lines ++ [pyStrip (strDrop (rstripCR line) 5)] } := by
  simp only [feed_line, data_not_event _ h, h, if_true, Bool.false_eq_true, if_false]

/-- `_feed_line` on a blank line with no pending event type is a no-op. -/
theorem feed_line_blank_none (jl : String → Option J) (line : String) (st : LineState)
    (hev : strStartsWith (rstripCR line) "event:" = false)
    (hd : strStartsWith (rstripCR line) "data:" = false)
    (hb : rstripCR line = "") (hce : st.current_event = none) :
    feed_line jl line st = st := by
  simp only [feed_line, hev, hd, hb, Bool.false_eq_true, if_false, if_true, hce]
  rfl

/-- `_feed_line` on any other line (garbage) is a no-op on any state. -/
theorem feed_line_other (jl : String → Option J) (line : String) (st : LineState)
    (hev : strStartsWith (rstripCR line) "event:" = false)
    (hd : strStartsWith (rstripCR line) "data:" = false)
    (hb : rstripCR line ≠ "") :
    feed_line jl line st = st := by
  have hb' : (rstripCR line == "") = false := by
    simp [hb]
  simp only [feed_line, hev, hd, hb', Bool.false_eq_true, if_false]

/-- States that agree on `events`, `snapshot` and have no pending event type
produce the same events and snapshot on any further input lines: the pending
data lines are observationally irrelevant while no event type is pending. -/
theorem feedLines_observables_congr (jl : String → Option J) :
    ∀ (lines : List String) (s₁ s₂ : LineState),
      s₁.events = s₂.events → s₁.snapshot = s₂.snapshot →
      s₁.current_event = none → s₂.current_event = none →
      (feedLines jl lines s₁).events = (feedLines jl lines s₂).events ∧
      (feedLines jl lines s₁).snapshot = (feedLines jl lines s₂).snapshot := by
  intro lines
  induction lines with
  | nil => intro s₁ s₂ h1 h2 h3 h4; exact ⟨h1, h2⟩
  | cons l ls ih =>
    intro s₁ s₂ h1 h2 h3 h4
    have hfl : ∀ s : LineState, feedLines jl (l :: ls) s =
        feedLines jl ls (feed_line jl l s) := fun s => rfl
    rw [hfl s₁, hfl s₂]
    by_cases hev : strStartsWith (rstripCR l) "event:" = true
    · have hst : feed_line jl l s₁ = feed_line jl l s₂ := by
        rw [feed_line_event jl l s₁ hev, feed_line_event jl l s₂ hev]
        cases s₁ with
        | mk e₁ c₁ d₁ n₁ =>
          cases s₂ with
          | mk e₂ c₂ d₂ n₂ =>
            simp only at h1 h2
            simp [h1, h2]
      rw [hst]
      exact ⟨rfl, rfl⟩
    · by_cases hd : strStartsWith (rstripCR l) "data:" = true
      · rw [feed_line_data jl l s₁ hd, feed_line_data jl l s₂ hd]
        exact ih _ _ h1 h2 h3 h4
      · by_cases hb : rstripCR l = ""
        · rw [feed_line_blank_none jl l s₁ (by simpa using hev) (by simpa using hd) hb h3,
            feed_line_blank_none jl l s₂ (by simpa using hev) (by simpa using hd) hb h4]
          exact ih _ _ h1 h2 h3 h4
        · rw [feed_line_other jl l s₁ (by simpa using hev) (by simpa using hd) hb,
            feed_line_other jl l s₂ (by simpa using hev) (by simpa using hd) hb]
          exact ih _ _ h1 h2 h3 h4

/-- C7: (i) a garbage line — neither an `event:` nor a `data:` field nor the
blank terminator — is a no-op on any reassembler state; (ii) a `data:` line
arriving while no `event:` type is pending (an orphan data line) never shows
up in the Wire Event list or the snapshot, whatever lines follow; (iii) an
event record is appended only by a blank line with a pending `event:` type;
(iv) an `event:` line resets the accumulated data lines, so orphan data
accumulated before it can never leak into a later recorded event. -/
theorem C7_orphan_and_garbage_lines_ignored :
    (∀ (jl : String → Option J) (line : String) (st : LineState),
      strStartsWith (rstripCR line) "event:" = false →
      strStartsWith (rstripCR line) "data:" = false →
      rstripCR line ≠ "" → feed_line jl line st = st) ∧
    (∀ (jl : String → Option J) (line : String) (st : LineState) (lines : List String),
      strStartsWith (rstripCR line) "data:" = true →
      st.current_event = none →
      (feedLines jl lines (feed_line jl line st)).events =
        (feedLines jl lines st).events ∧
      (feedLines jl lines (feed_line jl line st)).snapshot =
        (feedLines jl lines st).snapshot) ∧
    (∀ (jl : String → Option J) (line : String) (st : LineState),
      (feed_line jl line st).events ≠ st.events →
      rstripCR line = "" ∧ st.current_event ≠ none) ∧
    (∀ (jl : String → Option J) (line : String) (st : LineState),
      strStartsWith (rstripCR line) "event:" = true →
      (feed_line jl line st).current_data_lines = []) := by
  refine ⟨feed_line_other, ?_, ?_, ?_⟩
  · intro jl line st lines hd hce
    rw [feed_line_data jl line st hd]
    exact feedLines_observables_congr jl lines _ st rfl rfl hce hce
  · intro jl line st hne
    by_cases hev : strStartsWith (rstripCR line) "event:" = true
    · exact absurd (congrArg LineState.events (feed_line_event jl line st hev)) hne
    · by_cases hd : strStartsWith (rstripCR line) "data:" = true
      · exact absurd (congrArg LineState.events (feed_line_data jl line st hd)) hne
      · by_cases hb : rstripCR line = ""
        · refine ⟨hb, ?_⟩
          intro hce
          exact hne (congrArg LineState.events
            (feed_line_blank_none jl line st (by simpa using hev) (by simpa using hd) hb hce))
        · exact absurd (congrArg LineState.events
            (feed_line_other jl line st (by simpa using hev) (by simpa using hd) hb)) hne
  · intro jl line st hev
    rw [feed_line_event jl line st hev]

/-- Witness for `C7_orphan_and_garbage_lines_ignored`: an orphan
`data: orphan` line fed before an `event: ping` frame leaves the recorded
events and snapshot untouched. -/
theorem C7_witness :
    (feedLines (fun _ => none) ["event: ping", ""]
        (feed_line (fun _ => none) "data: orphan" ⟨[], none, [], none⟩)).events =
      (feedLines (fun _ => none) ["event: ping", ""] ⟨[], none, [], none⟩).events ∧
    (feedLines (fun _ => none) ["event: ping", ""]
        (feed_line (fun _ => none) "data: orphan" ⟨[], none, [], none⟩)).snapshot =
      (feedLines (fun _ => none) ["event: ping", ""] ⟨[], none, [], none⟩).snapshot :=
  C7_orphan_and_garbage_lines_ignored.2.1 (fun _ => none) "data: orphan"
    ⟨[], none, [], none⟩ ["event: ping", ""] (by decide) rfl

/-- `lookupJ` on a cons cell. -/
theorem lookupJ_cons (a : String × J) (fs : List (String × J)) (k : String) :
    lookupJ (a :: fs) k = if a.1 == k then some a.2 else lookupJ fs k := by
  by_cases ha : (a.1 == k) = true
  · have h1 : List.find? (fun p : String × J => p.1 == k) (a :: fs) = some a :=
      List.find?_cons_of_pos _ ha
    rw [lookupJ, h1, if_pos ha]
    rfl
  · have h1 : List.find? (fun p : String × J => p.1 == k) (a :: fs) =
        List.find? (fun p : String × J => p.1 == k) fs :=
      List.find?_cons_of_neg _ (by simpa using ha)
    rw [lookupJ, h1, if_neg ha]
    rfl

/-- `lookupJ` on an append: the left list wins. -/
theorem lookupJ_append (fs gs : List (String × J)) (k : String) :
    lookupJ (fs ++ gs) k = (lookupJ fs k).or (lookupJ gs k) := by
  rw [lookupJ, lookupJ, lookupJ, List.find?_append]
  cases hf : List.find? (fun p : String × J => p.1 == k) fs <;> rfl

/-- Replacing the binding of `k` in place stores the new value under `k`. -/
theorem lookupJ_map_set :
    ∀ (fs : List (String × J)) (k : String) (v : J),
      (fs.any (fun p => p.1 == k)) = true →
      lookupJ (fs.map (fun p => if p.1 == k then (p.1, v) else p)) k = some v := by
  intro fs k v
  induction fs with
  | nil => intro h; simp at h
  | cons a ps ih =>
    intro h
    rw [List.map_cons]
    by_cases ha : (a.1 == k) = true
    · rw [if_pos ha, lookupJ_cons]
      simp only [ha, if_true]
    · rw [if_neg ha, lookupJ_cons, if_neg (by simpa using ha)]
      have h' : (ps.any fun q => q.1 == k) = true := by
        rcases List.any_eq_true.mp h with ⟨x, hx, hpx⟩
        rcases List.mem_cons.mp hx with heq | hxs
        · subst heq; exact absurd hpx ha
        · exact List.any_eq_true.mpr ⟨x, hxs, hpx⟩
      exact ih h'

/-- `setJ` stores the new value under `k`. -/
theorem lookupJ_setJ_self (fs : List (String × J)) (k : String) (v : J) :
    lookupJ (setJ fs k v) k = some v := by
  rw [setJ]
  by_cases hany : (fs.any (fun p => p.1 == k)) = true
  · rw [if_pos hany]
    exact lookupJ_map_set fs k v hany
  · rw [if_neg hany, lookupJ_append]
    have hnone : lookupJ fs k = none := by
      rw [lookupJ, List.find?_eq_none.mpr]
      · rfl
      · intro x hx hpx
        exact hany (List.any_eq_true.mpr ⟨x, hx, hpx⟩)
    rw [hnone, Option.none_or, lookupJ_cons, if_pos (by simp)]

/-- In-place replacement of `k`'s binding leaves other keys unchanged. -/
theorem lookupJ_map_set_ne :
    ∀ (fs : List (String × J)) (k : String) (v : J) (k' : String), k' ≠ k →
      lookupJ (fs.map (fun p => if p.1 == k then (p.1, v) else p)) k' =
        lookupJ fs k' := by
  intro fs k v k' hne
  induction fs with
  | nil => rfl
  | cons a ps ih =>
    rw [List.map_cons]
    by_cases ha : (a.1 == k) = true
    · have ha' : (a.1 == k') = false := by
        have hak : a.1 = k := eq_of_beq ha
        subst hak
        exact beq_eq_false_iff_ne.mpr (fun h => hne h.symm)
      rw [if_pos ha, lookupJ_cons, lookupJ_cons]
      simp only [ha', Bool.false_eq_true, if_false]
      exact ih
    · rw [if_neg ha, lookupJ_cons, lookupJ_cons]
      by_cases hk' : (a.1 == k') = true
      · rw [if_pos hk', if_pos hk']
      · rw [if_neg hk', if_neg hk']
        exact ih

/-- `setJ` leaves every other key's binding unchanged. -/
theorem lookupJ_setJ_ne (fs : List (String × J)) (k : String) (v : J) (k' : String)
    (hne : k' ≠ k) : lookupJ (setJ fs k v) k' = lookupJ fs k' := by
  rw [setJ]
  by_cases hany : (fs.any (fun p => p.1 == k)) = true
  · rw [if_pos hany]
    exact lookupJ_map_set_ne fs k v k' hne
  · rw [if_neg hany, lookupJ_append, lookupJ_cons,
      if_neg (by simpa using beq_eq_false_iff_ne.mpr (fun h => hne h.symm))]
    cases hf : lookupJ fs k' <;> rfl

/-- `lookupJ` succeeds exactly when some binding carries the key. -/
theorem lookupJ_isSome_iff_any (fs : List (String × J)) (k : String) :
    (lookupJ fs k).isSome = fs.any (fun p => p.1 == k) := by
  induction fs with
  | nil => rfl
  | cons a ps ih =>
    rw [List.any_cons, lookupJ_cons]
    by_cases ha : (a.1 == k) = true
    · rw [if_pos ha, ha, Bool.true_or]
      rfl
    · rw [if_neg ha, show (a.1 == k) = false from by simpa using ha, Bool.false_or]
      exact ih

/-- Folding assignments whose keys avoid `k` preserves `k`'s binding. -/
theorem lookupJ_foldl_setJ_ne :
    ∀ (dfs fs : List (String × J)) (k : String),
      (∀ p ∈ dfs, p.1 ≠ k) →
      lookupJ (dfs.foldl (fun a (p : String × J) => setJ a p.1 p.2) fs) k =
        lookupJ fs k := by
  intro dfs
  induction dfs with
  | nil => intro fs k _; rfl
  | cons d ds ih =>
    intro fs k h
    rw [List.foldl_cons]
    rw [ih (setJ fs d.1 d.2) k (fun p hp => h p (List.mem_cons_of_mem d hp))]
    exact lookupJ_setJ_ne fs d.1 d.2 k (fun he => h d (List.mem_cons_self d ds) he.symm)

/-- One `text_delta` event appends its text onto the addressed block. -/
theorem accBlockDelta_text_step (jl : String → Option J)
    (fs : List (String × J)) (blocks : List J) (bf : List (String × J))
    (acc t : String) (idx : Nat)
    (hcontent : lookupJ fs "content" = some (J.arr blocks))
    (hblock : blocks[idx]? = some (J.obj bf))
    (htext : lookupJ bf "text" = some (J.s acc)) :
    accumulate jl "content_block_delta"
      (J.obj [("index", J.i idx), ("delta",
        J.obj [("type", J.s "text_delta"), ("text", J.s t)])])
      (some (J.obj fs)) =
    some (J.obj (setJ fs "content"
      (J.arr (blocks.set idx (J.obj (setJ bf "text" (J.s (acc ++ t)))))))) := by
  have hlt : idx < blocks.length := by
    obtain ⟨h, _⟩ := List.getElem?_eq_some_iff.mp hblock
    exact h
  show some (accBlockDelta
      [("index", J.i idx), ("delta",
        J.obj [("type", J.s "text_delta"), ("text", J.s t)])] (J.obj fs)) = _
  have hget : pyGetDefault (J.obj fs) "content" (J.arr []) =
      Except.ok (J.arr blocks) := by
    simp [pyGetDefault, dget, hcontent]
  have hgi : pyGetItem (J.obj fs) "content" = Except.ok (J.arr blocks) := by
    simp [pyGetItem, hcontent]
  have hnn : ¬((idx : Int) < 0) := by omega
  have hpyidx : pyIndex (J.arr blocks) (idx : Int) = Except.ok (J.obj bf) := by
    simp only [pyIndex, if_neg hnn, Int.toNat_natCast, hblock]
  have hcond : (idx : Int) < ((blocks.length : Int)) := by omega
  have hadd : pyAdd ((lookupJ bf "text").getD (J.s ""))
      ((lookupJ [("type", J.s "text_delta"), ("text", J.s t)] "text").getD (J.s "")) =
      Except.ok (J.s (acc ++ t)) := by
    rw [htext]
    rfl
  have hsetIdx : pySetIndex blocks (idx : Int)
      (J.obj (setJ bf "text" (J.s (acc ++ t)))) =
      Except.ok (blocks.set idx (J.obj (setJ bf "text" (J.s (acc ++ t))))) := by
    simp only [pySetIndex, if_neg hnn, Int.toNat_natCast]
    rw [if_pos hlt]
  have hidxJ : dget [("index", J.i (idx : Int)),
      ("delta", J.obj [("type", J.s "text_delta"), ("text", J.s t)])] "index"
      (J.i 0) = J.i (idx : Int) := rfl
  have hdeltaJ : dget [("index", J.i (idx : Int)),
      ("delta", J.obj [("type", J.s "text_delta"), ("text", J.s t)])] "delta"
      (J.obj []) = J.obj [("type", J.s "text_delta"), ("text", J.s t)] := rfl
  have hty : jEqString ((lookupJ [("type", J.s "text_delta"), ("text", J.s t)]
      "type").getD J.null) "text_delta" = true := rfl
  simp only [accBlockDelta, accDeltaAppend, hidxJ, hdeltaJ, hty, hget, hgi, hpyidx,
    hadd, hsetIdx, pyLen, pyAsInt, hcond, if_true, jSetKeyD]

/-- Folding a run of `text_delta` events onto a snapshot whose addressed
block currently holds `acc` yields `acc` followed by the deltas in order. -/
theorem accumulate_text_deltas (jl : String → Option J) :
    ∀ (ts : List String) (fs : List (String × J)) (blocks : List J)
      (bf : List (String × J)) (acc : String) (idx : Nat),
      lookupJ fs "content" = some (J.arr blocks) →
      blocks[idx]? = some (J.obj bf) →
      lookupJ bf "text" = some (J.s acc) →
      lookupJ bf "_partial_json" = none →
      ∃ fs' blocks' bf',
        accumulateSeq jl (ts.map (textDeltaEvent idx)) (some (J.obj fs)) =
          some (J.obj fs') ∧
        lookupJ fs' "content" = some (J.arr blocks') ∧
        blocks'[idx]? = some (J.obj bf') ∧
        lookupJ bf' "text" = some (J.s (acc ++ strConcat ts)) ∧
        lookupJ bf' "_partial_json" = none := by
  intro ts
  induction ts with
  | nil =>
    intro fs blocks bf acc idx hcontent hblock htext hpj
    refine ⟨fs, blocks, bf, rfl, hcontent, hblock, ?_, hpj⟩
    rw [strConcat, String.append_empty]
    exact htext
  | cons t ts ih =>
    intro fs blocks bf acc idx hcontent hblock htext hpj
    have hlt : idx < blocks.length := by
      obtain ⟨h, _⟩ := List.getElem?_eq_some_iff.mp hblock
      exact h
    have hstep := accBlockDelta_text_step jl fs blocks bf acc t idx hcontent hblock htext
    have hseq : accumulateSeq jl ((t :: ts).map (textDeltaEvent idx))
        (some (J.obj fs)) =
        accumulateSeq jl (ts.map (textDeltaEvent idx))
          (accumulate jl "content_block_delta"
            (J.obj [("index", J.i idx), ("delta",
              J.obj [("type", J.s "text_delta"), ("text", J.s t)])])
            (some (J.obj fs))) := rfl
    rw [hseq, hstep]
    have hcontent' : lookupJ (setJ fs "content"
        (J.arr (blocks.set idx (J.obj (setJ bf "text" (J.s (acc ++ t))))))) "content" =
        some (J.arr (blocks.set idx (J.obj (setJ bf "text" (J.s (acc ++ t)))))) :=
      lookupJ_setJ_self _ _ _
    have hblock' : (blocks.set idx (J.obj (setJ bf "text" (J.s (acc ++ t)))))[idx]? =
        some (J.obj (setJ bf "text" (J.s (acc ++ t)))) := by
      rw [List.getElem?_set_self (by simpa using hlt)]
    have htext' : lookupJ (setJ bf "text" (J.s (acc ++ t))) "text" =
        some (J.s (acc ++ t)) := lookupJ_setJ_self _ _ _
    have hpj' : lookupJ (setJ bf "text" (J.s (acc ++ t))) "_partial_json" = none := by
      rw [lookupJ_setJ_ne _ _ _ _ (by decide)]
      exact hpj
    obtain ⟨fs', blocks', bf', h1, h2, h3, h4, h5⟩ :=
      ih _ _ _ (acc ++ t) idx hcontent' hblock' htext' hpj'
    refine ⟨fs', blocks', bf', h1, h2, h3, ?_, h5⟩
    rw [strConcat, ← String.append_assoc]
    exact h4

/-- `content_block_start` allocates (zero-padding as needed) slot `idx` and
seeds it with the event's block descriptor. -/
theorem accBlockStart_sets_slot (jl : String → Option J)
    (mfs bfs : List (String × J)) (idx : Nat)
    (hmc : lookupJ mfs "content" = none ∨
      ∃ cs, lookupJ mfs "content" = some (J.arr cs)) :
    ∃ fs₁ blocks₁,
      accumulate jl "content_block_start"
        (J.obj [("index", J.i idx), ("content_block", J.obj bfs)])
        (some (J.obj mfs)) = some (J.obj fs₁) ∧
      lookupJ fs₁ "content" = some (J.arr blocks₁) ∧
      blocks₁[idx]? = some (J.obj bfs) := by
  have hdisp : accumulate jl "content_block_start"
      (J.obj [("index", J.i idx), ("content_block", J.obj bfs)])
      (some (J.obj mfs)) =
      some (accBlockStart [("index", J.i idx), ("content_block", J.obj bfs)]
        (J.obj mfs)) := rfl
  rw [hdisp]
  have hnn : ¬((idx : Int) < 0) := by omega
  have hidxJ : (lookupJ [("index", J.i (idx : Int)),
      ("content_block", J.obj bfs)] "index") = some (J.i (idx : Int)) := rfl
  have hblockArg : dget [("index", J.i (idx : Int)),
      ("content_block", J.obj bfs)] "content_block" (J.obj []) = J.obj bfs := rfl
  rcases hmc with hnone | ⟨cs, hsome⟩
  · -- "content" not yet present: it is created as [] and padded
    have hany : (mfs.any (fun p => p.1 == "content")) = false := by
      have h := lookupJ_isSome_iff_any mfs "content"
      rw [hnone] at h
      exact h.symm
    have hcontains : pyContains "content" (J.obj mfs) = Except.ok false := by
      simp [pyContains, hany]
    have hgi : pyGetItem (J.obj (setJ mfs "content" (J.arr []))) "content" =
        Except.ok (J.arr []) := by
      simp [pyGetItem, lookupJ_setJ_self]
    have hrep : (([] : List J) ++ List.replicate
        ((idx : Int) + 1 - 0).toNat (J.obj [])) =
        List.replicate (idx + 1) (J.obj []) := by
      rw [List.nil_append, show ((idx : Int) + 1 - 0).toNat = idx + 1 from by omega]
    have hsetIdx : pySetIndex (List.replicate (idx + 1) (J.obj [])) (idx : Int)
        (J.obj bfs) =
        Except.ok ((List.replicate (idx + 1) (J.obj [])).set idx (J.obj bfs)) := by
      simp only [pySetIndex, if_neg hnn, Int.toNat_natCast]
      rw [if_pos (by simp)]
    have heq : accBlockStart [("index", J.i idx), ("content_block", J.obj bfs)]
        (J.obj mfs) =
        J.obj (setJ (setJ (setJ mfs "content" (J.arr [])) "content"
          (J.arr (List.replicate (idx + 1) (J.obj [])))) "content"
          (J.arr ((List.replicate (idx + 1) (J.obj [])).set idx (J.obj bfs)))) := by
      simp only [accBlockStart, hcontains, Bool.false_eq_true, if_false, pySetKey,
        hgi, pyLen, hidxJ, pyAsInt, Option.getD_some, List.length_nil,
        Nat.cast_zero, hblockArg,
        if_pos (by omega : ((0 : Int)) ≤ (idx : Int)), hrep,
        hsetIdx, jSetKeyD]
    refine ⟨_, (List.replicate (idx + 1) (J.obj [])).set idx (J.obj bfs),
      by rw [heq], lookupJ_setJ_self _ _ _, ?_⟩
    rw [List.getElem?_set_self (by simp)]
  · -- "content" already a list: padded if needed, slot `idx` overwritten
    have hany : (mfs.any (fun p => p.1 == "content")) = true := by
      have h := lookupJ_isSome_iff_any mfs "content"
      rw [hsome] at h
      exact h.symm
    have hcontains : pyContains "content" (J.obj mfs) = Except.ok true := by
      simp [pyContains, hany]
    have hgi : pyGetItem (J.obj mfs) "content" = Except.ok (J.arr cs) := by
      simp [pyGetItem, hsome]
    by_cases hpad : ((cs.length : Int) ≤ (idx : Int))
    · have hrep : (cs ++ List.replicate
          ((idx : Int) + 1 - (cs.length : Int)).toNat (J.obj [])).length = idx + 1 := by
        simp only [List.length_append, List.length_replicate]
        omega
      have hsetIdx : pySetIndex (cs ++ List.replicate
          ((idx : Int) + 1 - (cs.length : Int)).toNat (J.obj [])) (idx : Int)
          (J.obj bfs) =
          Except.ok ((cs ++ List.replicate
            ((idx : Int) + 1 - (cs.length : Int)).toNat (J.obj [])).set idx
            (J.obj bfs)) := by
        simp only [pySetIndex, if_neg hnn, Int.toNat_natCast]
        rw [if_pos (by omega)]
      have heq : accBlockStart [("index", J.i idx), ("content_block", J.obj bfs)]
          (J.obj mfs) =
          J.obj (setJ (setJ mfs "content"
            (J.arr (cs ++ List.replicate
              ((idx : Int) + 1 - (cs.length : Int)).toNat (J.obj [])))) "content"
            (J.arr ((cs ++ List.replicate
              ((idx : Int) + 1 - (cs.length : Int)).toNat (J.obj [])).set idx
              (J.obj bfs)))) := by
        simp only [accBlockStart, hcontains, if_true, hgi, pyLen, hidxJ, pyAsInt,
          Option.getD_some, if_pos hpad, hblockArg, hsetIdx, jSetKeyD]
      refine ⟨_, _, by rw [heq], lookupJ_setJ_self _ _ _, ?_⟩
      rw [List.getElem?_set_self (by rw [hrep]; omega)]
    · have hlt : idx < cs.length := by omega
      have hsetIdx : pySetIndex cs (idx : Int) (J.obj bfs) =
          Except.ok (cs.set idx (J.obj bfs)) := by
        simp only [pySetIndex, if_neg hnn, Int.toNat_natCast]
        rw [if_pos hlt]
      have heq : accBlockStart [("index", J.i idx), ("content_block", J.obj bfs)]
          (J.obj mfs) =
          J.obj (setJ (setJ mfs "content" (J.arr cs)) "content"
            (J.arr (cs.set idx (J.obj bfs)))) := by
        simp only [accBlockStart, hcontains, if_true, hgi, pyLen, hidxJ, pyAsInt,
          Option.getD_some, if_neg hpad, hblockArg, hsetIdx, jSetKeyD]
      refine ⟨_, _, by rw [heq], lookupJ_setJ_self _ _ _, ?_⟩
      rw [List.getElem?_set_self (by simpa using hlt)]

/-- `content_block_stop` leaves a block without a staging buffer unchanged. -/
theorem accBlockStop_no_partial (jl : String → Option J)
    (fs : List (String × J)) (blocks : List J) (bf : List (String × J)) (idx : Nat)
    (hcontent : lookupJ fs "content" = some (J.arr blocks))
    (hblock : blocks[idx]? = some (J.obj bf))
    (hpj : lookupJ bf "_partial_json" = none) :
    accumulate jl "content_block_stop" (J.obj [("index", J.i idx)])
      (some (J.obj fs)) = some (J.obj fs) := by
  have hlt : idx < blocks.length := by
    obtain ⟨h, _⟩ := List.getElem?_eq_some_iff.mp hblock
    exact h
  show some (accBlockStop jl [("index", J.i idx)] (J.obj fs)) = _
  have hget : pyGetDefault (J.obj fs) "content" (J.arr []) =
      Except.ok (J.arr blocks) := by
    simp [pyGetDefault, dget, hcontent]
  have hgi : pyGetItem (J.obj fs) "content" = Except.ok (J.arr blocks) := by
    simp [pyGetItem, hcontent]
  have hnn : ¬((idx : Int) < 0) := by omega
  have hpyidx : pyIndex (J.arr blocks) (idx : Int) = Except.ok (J.obj bf) := by
    simp only [pyIndex, if_neg hnn, Int.toNat_natCast, hblock]
  have hcond : (idx : Int) < ((blocks.length : Int)) := by omega
  have hanypj : (bf.any (fun p => p.1 == "_partial_json")) = false := by
    have h := lookupJ_isSome_iff_any bf "_partial_json"
    rw [hpj] at h
    exact h.symm
  have hcontains : pyContains "_partial_json" (J.obj bf) = Except.ok false := by
    simp [pyContains, hanypj]
  have hidxJ : dget [("index", J.i (idx : Int))] "index" (J.i 0) =
      J.i (idx : Int) := rfl
  simp only [accBlockStop, hidxJ, hget, hgi, pyLen, pyAsInt, hcond, if_true,
    hpyidx, hcontains]

/-- `message_delta` with a delta carrying no `content` key preserves the
snapshot's content array. -/
theorem accMessageDelta_preserves_content (jl : String → Option J)
    (dfs ufs fs : List (String × J))
    (hdc : ∀ p ∈ dfs, p.1 ≠ "content") :
    ∃ fs₂,
      accumulate jl "message_delta"
        (J.obj [("delta", J.obj dfs), ("usage", J.obj ufs)])
        (some (J.obj fs)) = some (J.obj fs₂) ∧
      lookupJ fs₂ "content" = lookupJ fs "content" := by
  have husage : ∀ (s1fs : List (String × J)),
      lookupJ s1fs "content" = lookupJ fs "content" →
      ∃ fs₂ : List (String × J),
        (if pyTruthy (J.obj ufs) then
          match pyContains "usage" (J.obj s1fs) with
          | Except.error _ => J.obj s1fs
          | Except.ok mem =>
            match (if mem then Except.ok (J.obj s1fs)
                   else pySetKey (J.obj s1fs) "usage" (J.obj [])) with
            | Except.error _ => J.obj s1fs
            | Except.ok s2 =>
              match pyGetItem s2 "usage" with
              | Except.error _ => s2
              | Except.ok uval =>
                match uval, (J.obj ufs : J) with
                | J.obj ufs0, J.obj gfs =>
                  jSetKeyD s2 "usage"
                    (J.obj (gfs.foldl (fun a (p : String × J) => setJ a p.1 p.2) ufs0))
                | _, _ => s2
         else J.obj s1fs) = J.obj fs₂ ∧
        lookupJ fs₂ "content" = lookupJ fs "content" := by
    intro s1fs hpres
    by_cases htru : pyTruthy (J.obj ufs) = true
    · rw [if_pos htru]
      have hcont : pyContains "usage" (J.obj s1fs) =
          Except.ok (s1fs.any (fun p => p.1 == "usage")) := rfl
      rw [hcont]
      cases huv : lookupJ s1fs "usage" with
      | some uval =>
        have hmem : (s1fs.any (fun p => p.1 == "usage")) = true := by
          have h := lookupJ_isSome_iff_any s1fs "usage"
          rw [huv] at h
          exact h.symm
        have hgiu : pyGetItem (J.obj s1fs) "usage" = Except.ok uval := by
          simp [pyGetItem, huv]
        simp only [hmem, if_true, hgiu]
        cases uval with
        | obj u0 =>
          refine ⟨setJ s1fs "usage"
            (J.obj (ufs.foldl (fun a (p : String × J) => setJ a p.1 p.2) u0)), rfl, ?_⟩
          rw [lookupJ_setJ_ne _ _ _ _ (by decide)]
          exact hpres
        | null => exact ⟨s1fs, rfl, hpres⟩
        | b v => exact ⟨s1fs, rfl, hpres⟩
        | i n => exact ⟨s1fs, rfl, hpres⟩
        | s v => exact ⟨s1fs, rfl, hpres⟩
        | arr xs => exact ⟨s1fs, rfl, hpres⟩
      | none =>
        have hmem : (s1fs.any (fun p => p.1 == "usage")) = false := by
          have h := lookupJ_isSome_iff_any s1fs "usage"
          rw [huv] at h
          exact h.symm
        have hsk : pySetKey (J.obj s1fs) "usage" (J.obj []) =
            Except.ok (J.obj (setJ s1fs "usage" (J.obj []))) := rfl
        have hgiu : pyGetItem (J.obj (setJ s1fs "usage" (J.obj []))) "usage" =
            Except.ok (J.obj []) := by
          simp [pyGetItem, lookupJ_setJ_self]
        simp only [hmem, Bool.false_eq_true, if_false, hsk, hgiu]
        refine ⟨setJ (setJ s1fs "usage" (J.obj [])) "usage"
          (J.obj (ufs.foldl (fun a (p : String × J) => setJ a p.1 p.2) [])), rfl, ?_⟩
        rw [lookupJ_setJ_ne _ _ _ _ (by decide), lookupJ_setJ_ne _ _ _ _ (by decide)]
        exact hpres
    · rw [if_neg htru]
      exact ⟨s1fs, rfl, hpres⟩
  cases dfs with
  | nil =>
    obtain ⟨fs₂, hX, hp⟩ := husage fs rfl
    exact ⟨fs₂, congrArg some hX, hp⟩
  | cons d ds =>
    obtain ⟨fs₂, hX, hp⟩ := husage
      ((d :: ds).foldl (fun a (p : String × J) => setJ a p.1 p.2) fs)
      (lookupJ_foldl_setJ_ne (d :: ds) fs "content" hdc)
    exact ⟨fs₂, congrArg some hX, hp⟩

/-- C2: for every well-formed streamed exchange — `message_start` (whose
message has no content array or an array one), `content_block_start` at
`idx` seeding an empty text block, any run of `text_delta` events at `idx`,
`content_block_stop`, `message_delta` (whose delta does not touch `content`),
`message_stop` — the reconstructed snapshot's addressed content block holds
exactly the concatenation of the text deltas in arrival order. -/
theorem C2_reconstructed_text_is_delta_concat
    (jl : String → Option J) (mfs bfs dfs ufs : List (String × J))
    (idx : Nat) (ts : List String)
    (hmc : lookupJ mfs "content" = none ∨
      ∃ cs, lookupJ mfs "content" = some (J.arr cs))
    (hbt : lookupJ bfs "text" = some (J.s ""))
    (hbp : lookupJ bfs "_partial_json" = none)
    (hdc : ∀ p ∈ dfs, p.1 ≠ "content") :
    ∃ fs blocks bf,
      accumulateSeq jl (streamEvents mfs bfs idx ts dfs ufs) none =
        some (J.obj fs) ∧
      lookupJ fs "content" = some (J.arr blocks) ∧
      blocks[idx]? = some (J.obj bf) ∧
      lookupJ bf "text" = some (J.s (strConcat ts)) := by
  have h1 : accumulate jl "message_start" (J.obj [("message", J.obj mfs)]) none =
      some (J.obj mfs) := rfl
  obtain ⟨fs₁, blocks₁, h2, hc₁, hb₁⟩ := accBlockStart_sets_slot jl mfs bfs idx hmc
  obtain ⟨fs', blocks', bf', h3, hc', hb', ht', hp'⟩ :=
    accumulate_text_deltas jl ts fs₁ blocks₁ bfs "" idx hc₁ hb₁ hbt hbp
  have h4 := accBlockStop_no_partial jl fs' blocks' bf' idx hc' hb' hp'
  obtain ⟨fs₂, h5, hpres⟩ := accMessageDelta_preserves_content jl dfs ufs fs' hdc
  have h6 : accumulate jl "message_stop" (J.obj []) (some (J.obj fs₂)) =
      some (J.obj fs₂) := rfl
  have hcons : ∀ (a : String) (b : J) (evs : List (String × J)) (s : Option J),
      accumulateSeq jl ((a, b) :: evs) s =
        accumulateSeq jl evs (accumulate jl a b s) := fun _ _ _ _ => rfl
  have happ : ∀ (xs ys : List (String × J)) (s : Option J),
      accumulateSeq jl (xs ++ ys) s = accumulateSeq jl ys (accumulateSeq jl xs s) := by
    intro xs ys s
    rw [accumulateSeq, accumulateSeq, accumulateSeq, List.foldl_append]
  have hchain : accumulateSeq jl (streamEvents mfs bfs idx ts dfs ufs) none =
      some (J.obj fs₂) := by
    have hse : streamEvents mfs bfs idx ts dfs ufs =
        ("message_start", J.obj [("message", J.obj mfs)]) ::
        ("content_block_start",
          J.obj [("index", J.i idx), ("content_block", J.obj bfs)]) ::
        (ts.map (textDeltaEvent idx) ++
          [("content_block_stop", J.obj [("index", J.i idx)]),
           ("message_delta", J.obj [("delta", J.obj dfs), ("usage", J.obj ufs)]),
           ("message_stop", J.obj [])]) := rfl
    rw [hse, hcons, h1, hcons, h2, happ, h3, hcons, h4, hcons, h5, hcons, h6]
    rfl
  refine ⟨fs₂, blocks', bf', hchain, ?_, hb', ?_⟩
  · rw [hpres]
    exact hc'
  · rw [← String.empty_append (strConcat ts)]
    exact ht'

/-- Witness for `C2_reconstructed_text_is_delta_concat`: scenario B of the
spec — three text deltas `"1, "`, `"2, "`, `"3"` reconstruct to `"1, 2, 3"`. -/
theorem C2_witness :
    ∃ fs blocks bf,
      accumulateSeq (fun _ => none)
        (streamEvents [("content", J.arr [])]
          [("type", J.s "text"), ("text", J.s "")] 0
          ["1, ", "2, ", "3"] [("stop_reason", J.s "end_turn")]
          [("output_tokens", J.i 8)]) none = some (J.obj fs) ∧
      lookupJ fs "content" = some (J.arr blocks) ∧
      blocks[0]? = some (J.obj bf) ∧
      lookupJ bf "text" = some (J.s (strConcat ["1, ", "2, ", "3"])) :=
  C2_reconstructed_text_is_delta_concat (fun _ => none) [("content", J.arr [])]
    [("type", J.s "text"), ("text", J.s "")] [("stop_reason", J.s "end_turn")]
    [("output_tokens", J.i 8)] 0 ["1, ", "2, ", "3"]
    (Or.inr ⟨[], rfl⟩) rfl rfl (by decide)
